import Mathlib

/-!
Verification development for the GameInsights multi-source fetch
orchestration and error-classification core.

The definitions below are a shallow embedding of
`src/gameinsights/collector.py` (class `Collector`),
`src/gameinsights/exceptions.py` and
`src/gameinsights/model/game_data.py` (class `GameDataModel`).

Modelling conventions:
* Python strings are Lean `String`s; case folding (`str.lower`) is modelled
  with `Char.toLower`, which agrees with Python on ASCII (all the pattern
  literals in the source are ASCII).
* Python `re.search` with the three concrete patterns used by the source
  (`appid\s+(\S+)`, `steamid\s+(\S+)`, `status(?:\s+code)?:?\s*[45]\d{2}`)
  is modelled by direct leftmost-match scanners specialised to those
  patterns (greedy repetition and optional-group backtracking resolved by
  hand; the resolutions are noted at the definitions).
* Python floats are modelled as exact rationals extended with the three
  non-finite values; `math.isfinite` becomes a constructor test.
* `datetime` values are modelled as whole days since the epoch; time of
  day and timezone are abstracted away (no claim depends on them).
* Exceptions become `Except` values; an exception type becomes an
  inductive datatype.
-/

namespace GameInsights

/-- Exception hierarchy of `exceptions.py` restricted to the constructors the
orchestration core can produce (`DependencyNotInstalledError` is only used by
the pandas import path, which is out of scope). -/
inductive GameInsightsError where
  | gameNotFound (identifier : String) (message : String)
  | sourceUnavailable (source : String) (reason : String)
  | invalidRequest (message : String)
  | generic (message : String)
deriving DecidableEq, Repr

/-- `str(e)` for the exceptions above, as built by their `__init__` bodies.
`classify_source_error` always passes an explicit message to
`GameNotFoundError`, so the `message or default` fallback never triggers in
the paths modelled here. -/
def errMessage : GameInsightsError → String
  | .gameNotFound _ message => message
  | .sourceUnavailable source reason =>
      "Source \x27" ++ source ++ "\x27 is unavailable: " ++ reason
  | .invalidRequest message => message
  | .generic message => message

/-- Python `\s` (ASCII part): space, tab, newline, carriage return,
vertical tab, form feed. -/
def pyIsSpace (c : Char) : Bool :=
  c == ' ' || c == '\t' || c == '\n' || c == '\r' ||
    c == Char.ofNat 11 || c == Char.ofNat 12

/-- `error_message.lower()` as a character list. -/
def pyLower (s : String) : List Char :=
  s.data.map Char.toLower

/-- Is `p` a prefix of `l`? -/
def headMatches : List Char → List Char → Bool
  | [], _ => true
  | _ :: _, [] => false
  | p :: ps, c :: cs => p == c && headMatches ps cs

/-- Python `pat in hay` (substring containment). -/
def containsSub (hay pat : List Char) : Bool :=
  match hay with
  | [] => headMatches pat []
  | _ :: rest => headMatches pat hay || containsSub rest pat

/-- One attempt of `kw\s+(\S+)` anchored at the head of `cs`: the literal
keyword, then at least one whitespace character, then a maximal nonempty run
of non-whitespace characters (the greedy `\s+`/`\S+` pair is deterministic
because `\S` and `\s` are disjoint). -/
def tokenAfterAt (kw cs : List Char) : Option (List Char) :=
  if headMatches kw cs then
    let after := cs.drop kw.length
    if (after.takeWhile pyIsSpace).isEmpty then none
    else
      let tok := (after.dropWhile pyIsSpace).takeWhile (fun c => !pyIsSpace c)
      if tok.isEmpty then none else some tok
  else none

/-- `re.search(kw + r"\s+(\S+)", cs)`: leftmost position at which the whole
pattern matches, returning the captured token. -/
def searchToken (kw : List Char) : List Char → Option (List Char)
  | [] => none
  | c :: rest =>
    match tokenAfterAt kw (c :: rest) with
    | some tok => some tok
    | none => searchToken kw rest

/-- `.rstrip(".,")`. -/
def rstripDotComma (tok : List Char) : List Char :=
  (tok.reverse.dropWhile (fun c => c == '.' || c == ',')).reverse

/-- The `[45]\d{2}` tail of the HTTP-status pattern. -/
def checkStatusDigits : List Char → Bool
  | c1 :: c2 :: c3 :: _ => (c1 == '4' || c1 == '5') && c2.isDigit && c3.isDigit
  | _ => false

/-- The `:?\s*[45]\d{2}` tail. A leading `:` can only be consumed by `:?`
(it is neither whitespace nor `[45]`), and `\s*` must then consume the whole
whitespace run (digits are not whitespace), so backtracking is deterministic. -/
def statusTail (cs : List Char) : Bool :=
  let cs1 := match cs with
    | ':' :: r => r
    | r => r
  checkStatusDigits (cs1.dropWhile pyIsSpace)

/-- `status(?:\s+code)?:?\s*[45]\d{2}` anchored at the head of `cs`.
Inside the optional group, `\s+` must consume the whole whitespace run
(`code` starts with a non-whitespace character), so the only two
alternatives are: skip the group, or take all whitespace then `code`. -/
def statusAt (cs : List Char) : Bool :=
  if headMatches "status".data cs then
    let rest := cs.drop 6
    statusTail rest ||
      (!(rest.takeWhile pyIsSpace).isEmpty &&
        headMatches "code".data (rest.dropWhile pyIsSpace) &&
        statusTail ((rest.dropWhile pyIsSpace).drop 4))
  else false

/-- `re.search(r"status(?:\s+code)?:?\s*[45]\d{2}", cs) is not None`. -/
def searchStatus : List Char → Bool
  | [] => false
  | c :: rest => statusAt (c :: rest) || searchStatus rest

/-- Identifier-hint extraction of classification pattern 1:
`re.search(r"appid\s+(\S+)", lowered)`, `.group(1).rstrip(".,")`,
falling back to `"unknown"`. -/
def appidHint (lowered : List Char) : String :=
  match searchToken "appid".data lowered with
  | some tok => String.mk (rstripDotComma tok)
  | none => "unknown"

/-- Identifier-hint extraction of classification pattern 6: the `appid`
regex, then the `steamid` regex, first match wins, else `"unknown"`. -/
def appidSteamidHint (lowered : List Char) : String :=
  match searchToken "appid".data lowered with
  | some tok => String.mk (rstripDotComma tok)
  | none =>
    match searchToken "steamid".data lowered with
    | some tok => String.mk (rstripDotComma tok)
    | none => "unknown"

/-- The `network_keywords` list of classification pattern 4. -/
def networkKeywords : List String :=
  ["status code: 599", "failed to connect", "connection", "timeout", "ssl",
    "toomanyredirects"]

/-- `Collector._classify_source_error`: the single authoritative, ordered,
first-match-wins mapping from a raw error string to a typed exception. -/
def classify_source_error (source_name error_message : String) :
    GameInsightsError :=
  let lowered := pyLower error_message
  if containsSub lowered "not available in the specified region".data then
    .gameNotFound (appidHint lowered) error_message
  else if containsSub lowered "failed to parse".data then
    .sourceUnavailable source_name error_message
  else if containsSub lowered "failed to fetch".data ||
      containsSub lowered "failed to obtain".data then
    .sourceUnavailable source_name error_message
  else if networkKeywords.any (fun kw => containsSub lowered kw.data) then
    .sourceUnavailable source_name error_message
  else if searchStatus lowered then
    .sourceUnavailable source_name error_message
  else if containsSub lowered "not found".data then
    .gameNotFound (appidSteamidHint lowered) error_message
  else
    .generic error_message

/-- `Collector._raise_for_fetch_failure`, as the exception value it raises
(the Python function unconditionally raises). -/
def raise_for_fetch_failure (source_name error_message : String)
    (is_primary : Bool) : GameInsightsError :=
  let exc := classify_source_error source_name error_message
  match exc with
  | .gameNotFound _ _ =>
      if !is_primary then .sourceUnavailable source_name error_message else exc
  | _ => exc

/-- Does an exception value use the `GameNotFoundError` constructor? -/
def isGameNotFound : GameInsightsError → Bool
  | .gameNotFound _ _ => true
  | _ => false

/-- All six classification rules fail on the message (the fall-through
condition of `classify_source_error`). -/
def no_rule_matches (error_message : String) : Bool :=
  let lowered := pyLower error_message
  !containsSub lowered "not available in the specified region".data &&
  !containsSub lowered "failed to parse".data &&
  !(containsSub lowered "failed to fetch".data ||
      containsSub lowered "failed to obtain".data) &&
  !networkKeywords.any (fun kw => containsSub lowered kw.data) &&
  !searchStatus lowered &&
  !containsSub lowered "not found".data

/-! ### Data model: `GameDataModel` (`model/game_data.py`)

Raw source payloads and validated/serialised values. Containers are
modelled one level deep (a list of scalars, a dict of scalars, a list of
dicts of scalars); no field of the model, and no claim, needs deeper
nesting. -/

/-- A Python float, modelled as an exact rational extended with the three
non-finite values; `math.isfinite` becomes a constructor test and IEEE
rounding is abstracted away (no claim depends on it). -/
inductive PyFloat where
  | finite (q : ℚ)
  | nan
  | inf
  | ninf
deriving DecidableEq, Repr

/-- A scalar Python value inside a container. -/
inductive RawScalar where
  | sNone
  | sStr (s : String)
  | sInt (n : ℤ)
  | sFloat (f : PyFloat)
  | sBool (b : Bool)
deriving DecidableEq, Repr

/-- A raw Python value as supplied by a source for one field. -/
inductive RawVal where
  | rnone
  | rstr (s : String)
  | rint (n : ℤ)
  | rfloat (f : PyFloat)
  | rbool (b : Bool)
  | rlist (xs : List RawScalar)
  | rdict (d : List (String × RawScalar))
  | rdicts (ds : List (List (String × RawScalar)))
deriving DecidableEq, Repr

/-- A JSON-mode scalar produced by `model_dump(mode="json")`. -/
inductive JsonScalar where
  | jsNull
  | jsBool (b : Bool)
  | jsStr (s : String)
  | jsInt (n : ℤ)
  | jsFloat (f : PyFloat)
deriving DecidableEq, Repr

/-- A JSON-mode value produced by `model_dump(mode="json")`. -/
inductive JsonVal where
  | scalar (v : JsonScalar)
  | arr (xs : List JsonScalar)
  | arrObj (ds : List (List (String × JsonScalar)))
deriving DecidableEq, Repr

/-- A validated field value held by a constructed `GameDataModel`. A float
field can only hold a finite value (`handle_float` rejects non-finite
input), hence `vFloat` carries a plain rational. -/
inductive ValV where
  | vNone
  | vStr (s : String)
  | vInt (n : ℤ)
  | vFloat (q : ℚ)
  | vBool (b : Bool)
  | vDate (d : ℤ)
  | vStrList (xs : List String)
  | vDictList (ds : List (List (String × RawScalar)))
deriving DecidableEq, Repr

/-- The validation behaviour attached to each field of `GameDataModel`:
its annotated type together with the `mode="before"` validator that covers
it, if any. -/
inductive FieldKind where
  | kReqStr
  | kOptStrCoe
  | kOptStrStrict
  | kIntBefore
  | kIntLax
  | kFloatBefore
  | kBool
  | kStrList
  | kDictList
  | kDate
deriving DecidableEq, Repr

/-- First-match association-list lookup (Python `dict` access). -/
def alookup {α : Type} : List (String × α) → String → Option α
  | [], _ => none
  | (k, v) :: rest, key => if k = key then some v else alookup rest key

/-- In-place update of one key (Python `dict` assignment: insertion order
is preserved for existing keys, new keys are appended). -/
def setKey {α : Type} : List (String × α) → String → α → List (String × α)
  | [], key, v => [(key, v)]
  | (k, w) :: rest, key, v =>
    if k = key then (key, v) :: rest else (k, w) :: setKey rest key v

/-- `repr`/`str` of a Python float. The decimal rendering of a finite value
is abstracted to the rational literal; no claim inspects this text. -/
def floatRepr : PyFloat → String
  | .nan => "nan"
  | .inf => "inf"
  | .ninf => "-inf"
  | .finite q => toString q

/-- Python `str(v)`. Container `repr` text is abstracted; no claim inspects
it. -/
def pyStr : RawVal → String
  | .rnone => "None"
  | .rstr s => s
  | .rint n => toString n
  | .rfloat f => floatRepr f
  | .rbool b => if b then "True" else "False"
  | .rlist _ => "[...]"
  | .rdict _ => "\x7b...\x7d"
  | .rdicts _ => "[...]"

/-- `str.strip()` (ASCII whitespace). -/
def stripSpaces (cs : List Char) : List Char :=
  ((cs.dropWhile pyIsSpace).reverse.dropWhile pyIsSpace).reverse

/-- Numeric value of a digit string. -/
def digitsToNat (ds : List Char) : ℕ :=
  ds.foldl (fun a c => a * 10 + (c.toNat - 48)) 0

/-- Python `int(s)` for a base-10 string: strip, optional sign, digits
(digit-group underscores are not modelled; no claim uses them). -/
def parseIntStr (s : String) : Option ℤ :=
  let cs := stripSpaces s.data
  let signed : ℤ × List Char :=
    match cs with
    | '-' :: r => (-1, r)
    | '+' :: r => (1, r)
    | r => (1, r)
  if !signed.2.isEmpty && signed.2.all Char.isDigit then
    some (signed.1 * digitsToNat signed.2)
  else none

/-- Truncation toward zero (Python `int(float)`). -/
def ratTrunc (q : ℚ) : ℤ :=
  if q < 0 then -Rat.floor (-q) else Rat.floor q

/-- Unsigned decimal mantissa with optional fraction and exponent, for
Python `float(s)`. -/
def parseDecExp (cs : List Char) : Option ℚ :=
  let intPart := cs.takeWhile Char.isDigit
  let rest1 := cs.dropWhile Char.isDigit
  let fracSplit : List Char × List Char :=
    match rest1 with
    | '.' :: r => (r.takeWhile Char.isDigit, r.dropWhile Char.isDigit)
    | r => ([], r)
  if intPart.isEmpty && fracSplit.1.isEmpty then none
  else
    let mant : ℚ :=
      (digitsToNat intPart : ℚ) +
        (digitsToNat fracSplit.1 : ℚ) / ((10 : ℚ) ^ fracSplit.1.length)
    match fracSplit.2 with
    | [] => some mant
    | e :: r =>
      if e == 'e' || e == 'E' then
        let esigned : Bool × List Char :=
          match r with
          | '-' :: rr => (true, rr)
          | '+' :: rr => (false, rr)
          | rr => (false, rr)
        if !esigned.2.isEmpty && esigned.2.all Char.isDigit then
          let ex := digitsToNat esigned.2
          some (if esigned.1 then mant / (10 : ℚ) ^ ex
            else mant * (10 : ℚ) ^ ex)
        else none
      else none

/-- Python `float(s)`: strip, optional sign, `inf`/`infinity`/`nan`
(case-insensitive) or a decimal literal. The value is kept exact as a
rational; IEEE rounding is abstracted (no claim depends on it). -/
def parseFloatStr (s : String) : Option PyFloat :=
  let cs := (stripSpaces s.data).map Char.toLower
  let signed : Bool × List Char :=
    match cs with
    | '-' :: r => (true, r)
    | '+' :: r => (false, r)
    | r => (false, r)
  if signed.2 = "inf".data || signed.2 = "infinity".data then
    some (if signed.1 then .ninf else .inf)
  else if signed.2 = "nan".data then some PyFloat.nan
  else
    match parseDecExp signed.2 with
    | some q => some (.finite (if signed.1 then -q else q))
    | none => none

/-- Gregorian leap year. -/
def isLeapYear (y : ℤ) : Bool :=
  (y % 4 == 0 && y % 100 != 0) || y % 400 == 0

/-- Number of days in a month. -/
def daysInMonth (y : ℤ) (m : ℕ) : ℕ :=
  if m = 2 then (if isLeapYear y then 29 else 28)
  else if m = 4 || m = 6 || m = 9 || m = 11 then 30
  else 31

/-- Days since 1970-01-01 of a civil date (standard civil-calendar
algorithm). -/
def daysFromCivil (y : ℤ) (m d : ℕ) : ℤ :=
  let y' := if m ≤ 2 then y - 1 else y
  let era := Int.fdiv y' 400
  let yoe := (y' - era * 400).toNat
  let mp := if m > 2 then m - 3 else m + 9
  let doy := (153 * mp + 2) / 5 + d - 1
  let doe := yoe * 365 + yoe / 4 - yoe / 100 + doy
  era * 146097 + (doe : ℤ) - 719468

/-- Civil date of a days-since-epoch count (inverse of `daysFromCivil`). -/
def civilFromDays (z : ℤ) : ℤ × ℕ × ℕ :=
  let z' := z + 719468
  let era := Int.fdiv z' 146097
  let doe := (z' - era * 146097).toNat
  let yoe := (doe - doe / 1460 + doe / 36524 - doe / 146096) / 365
  let y := (yoe : ℤ) + era * 400
  let doy := doe - (365 * yoe + yoe / 4 - yoe / 100)
  let mp := (5 * doy + 2) / 153
  let d := doy - (153 * mp + 2) / 5 + 1
  let m := if mp < 10 then mp + 3 else mp - 9
  (if m ≤ 2 then y + 1 else y, m, d)

/-- Two-digit zero padding. -/
def pad2 (n : ℕ) : String :=
  if n < 10 then "0" ++ toString n else toString n

/-- ISO rendering of a modelled datetime (midnight; time of day is
abstracted away). -/
def isoOfDays (z : ℤ) : String :=
  match civilFromDays z with
  | (y, m, d) => toString y ++ "-" ++ pad2 m ++ "-" ++ pad2 d ++ "T00:00:00"

/-- `datetime.strptime(v, "%Y-%m-%d")`: four-digit year, dash, 1-2 digit
month, dash, 1-2 digit day, nothing left over, valid calendar date. -/
def parseISO (cs : List Char) : Option (ℤ × ℕ × ℕ) :=
  match cs with
  | y1 :: y2 :: y3 :: y4 :: '-' :: rest =>
    if y1.isDigit && y2.isDigit && y3.isDigit && y4.isDigit then
      let y : ℤ := digitsToNat [y1, y2, y3, y4]
      let mds := rest.takeWhile Char.isDigit
      let rest2 := rest.dropWhile Char.isDigit
      if 1 ≤ mds.length && mds.length ≤ 2 then
        match rest2 with
        | '-' :: rest3 =>
          let dds := rest3.takeWhile Char.isDigit
          let rest4 := rest3.dropWhile Char.isDigit
          if (1 ≤ dds.length && dds.length ≤ 2) && rest4.isEmpty then
            let m := digitsToNat mds
            let d := digitsToNat dds
            if (1 ≤ m && m ≤ 12) && (1 ≤ d && d ≤ daysInMonth y m) then
              some (y, m, d)
            else none
          else none
        | _ => none
      else none
    else none
  | _ => none

/-- Month number from a three-letter abbreviation prefix (lowercased
input); `%b` matching is case-insensitive. -/
def monthFromAbbrev (cs : List Char) : Option (ℕ × List Char) :=
  if headMatches "jan".data cs then some (1, cs.drop 3)
  else if headMatches "feb".data cs then some (2, cs.drop 3)
  else if headMatches "mar".data cs then some (3, cs.drop 3)
  else if headMatches "apr".data cs then some (4, cs.drop 3)
  else if headMatches "may".data cs then some (5, cs.drop 3)
  else if headMatches "jun".data cs then some (6, cs.drop 3)
  else if headMatches "jul".data cs then some (7, cs.drop 3)
  else if headMatches "aug".data cs then some (8, cs.drop 3)
  else if headMatches "sep".data cs then some (9, cs.drop 3)
  else if headMatches "oct".data cs then some (10, cs.drop 3)
  else if headMatches "nov".data cs then some (11, cs.drop 3)
  else if headMatches "dec".data cs then some (12, cs.drop 3)
  else none

/-- `datetime.strptime(v, "%b %d, %Y")` (e.g. `"Jun 15, 2023"`): month
abbreviation, whitespace, 1-2 digit day, comma, whitespace, four-digit
year, valid calendar date. -/
def parseSteamDate (cs0 : List Char) : Option (ℤ × ℕ × ℕ) :=
  let cs := cs0.map Char.toLower
  match monthFromAbbrev cs with
  | none => none
  | some (m, rest) =>
    if (rest.takeWhile pyIsSpace).isEmpty then none
    else
      let rest1 := rest.dropWhile pyIsSpace
      let dds := rest1.takeWhile Char.isDigit
      let rest2 := rest1.dropWhile Char.isDigit
      if 1 ≤ dds.length && dds.length ≤ 2 then
        match rest2 with
        | ',' :: rest3 =>
          if (rest3.takeWhile pyIsSpace).isEmpty then none
          else
            match rest3.dropWhile pyIsSpace with
            | [y1, y2, y3, y4] =>
              if y1.isDigit && y2.isDigit && y3.isDigit && y4.isDigit then
                let y : ℤ := digitsToNat [y1, y2, y3, y4]
                let d := digitsToNat dds
                if (1 ≤ m && m ≤ 12) && (1 ≤ d && d ≤ daysInMonth y m) then
                  some (y, m, d)
                else none
              else none
            | _ => none
        | _ => none
      else none

/-- `GameDataModel.parse_release_date` (before-validator for
`release_date`): strings via the two `strptime` formats (parse failure is
caught and becomes `None`), numbers via `fromtimestamp` (`nan` raises a
caught `ValueError`; infinities raise an uncaught `OverflowError`), other
types fall through to `None`. -/
def parse_release_date (v : Option RawVal) : Except String (Option ℤ) :=
  match v with
  | none | some .rnone => .ok none
  | some (.rstr s) =>
    match parseISO s.data with
    | some (y, m, d) => .ok (some (daysFromCivil y m d))
    | none =>
      match parseSteamDate s.data with
      | some (y, m, d) => .ok (some (daysFromCivil y m d))
      | none => .ok none
  | some (.rint n) => .ok (some (Int.fdiv n 86400))
  | some (.rfloat (.finite q)) => .ok (some (Rat.floor (q / 86400)))
  | some (.rfloat .nan) => .ok none
  | some (.rfloat .inf) => .error "OverflowError: date value out of range"
  | some (.rfloat .ninf) => .error "OverflowError: date value out of range"
  | some (.rbool _) => .ok (some 0)
  | some _ => .ok none

/-- `GameDataModel.handle_integers` (before-validator of the int-typed
statistics fields): `int(v)` with `ValueError`/`TypeError` caught as
`None`; `int(±inf)` raises an uncaught `OverflowError`. -/
def handle_integers (v : Option RawVal) : Except String ValV :=
  match v with
  | none | some .rnone => .ok .vNone
  | some (.rint n) => .ok (.vInt n)
  | some (.rbool b) => .ok (.vInt (if b then 1 else 0))
  | some (.rfloat (.finite q)) => .ok (.vInt (ratTrunc q))
  | some (.rfloat .nan) => .ok .vNone
  | some (.rfloat .inf) =>
      .error "OverflowError: cannot convert float infinity to integer"
  | some (.rfloat .ninf) =>
      .error "OverflowError: cannot convert float infinity to integer"
  | some (.rstr s) =>
    .ok (match parseIntStr s with
      | some n => .vInt n
      | none => .vNone)
  | some _ => .ok .vNone

/-- `GameDataModel.handle_float` (before-validator of the float-typed
fields): convert to float or `None`; non-finite results are rejected as
absent data. -/
def handle_float (v : Option RawVal) : Except String ValV :=
  match v with
  | none | some .rnone => .ok .vNone
  | some (.rfloat (.finite q)) => .ok (.vFloat q)
  | some (.rfloat _) => .ok .vNone
  | some (.rint n) => .ok (.vFloat n)
  | some (.rbool b) => .ok (.vFloat (if b then 1 else 0))
  | some (.rstr s) =>
    .ok (match parseFloatStr s with
      | some (.finite q) => .vFloat q
      | some _ => .vNone
      | none => .vNone)
  | some _ => .ok .vNone

/-- `GameDataModel.ensure_string` (before-validator of the required
`steam_appid`): `None` becomes `""`, everything else `str(v)`; a missing
required field is a validation error. -/
def ensure_string (v : Option RawVal) : Except String ValV :=
  match v with
  | none => .error "Field required: steam_appid"
  | some .rnone => .ok (.vStr "")
  | some w => .ok (.vStr (pyStr w))

/-- `GameDataModel.ensure_optional_string`: coerce to string or preserve
`None`. -/
def ensure_optional_string (v : Option RawVal) : Except String ValV :=
  match v with
  | none | some .rnone => .ok .vNone
  | some w => .ok (.vStr (pyStr w))

/-- Plain pydantic validation of a `str | None` field without a
before-validator (`price_currency`, `review_score_desc`): numbers are not
coerced to strings. -/
def validate_plain_str (v : Option RawVal) : Except String ValV :=
  match v with
  | none | some .rnone => .ok .vNone
  | some (.rstr s) => .ok (.vStr s)
  | some _ => .error "Input should be a valid string"

/-- String spellings accepted as `True` by pydantic lax bool validation. -/
def boolStringsTrue : List String := ["true", "t", "yes", "y", "on", "1"]

/-- String spellings accepted as `False` by pydantic lax bool validation. -/
def boolStringsFalse : List String := ["false", "f", "no", "n", "off", "0"]

/-- Plain pydantic lax validation of a `bool | None` field (`is_free`,
`is_coming_soon`, `early_access`). -/
def validate_plain_bool (v : Option RawVal) : Except String ValV :=
  match v with
  | none | some .rnone => .ok .vNone
  | some (.rbool b) => .ok (.vBool b)
  | some (.rint n) =>
    if n = 0 then .ok (.vBool false)
    else if n = 1 then .ok (.vBool true)
    else .error "Input should be a valid boolean"
  | some (.rfloat (.finite q)) =>
    if q = 0 then .ok (.vBool false)
    else if q = 1 then .ok (.vBool true)
    else .error "Input should be a valid boolean"
  | some (.rstr s) =>
    let l := String.mk (pyLower s)
    if boolStringsTrue.contains l then .ok (.vBool true)
    else if boolStringsFalse.contains l then .ok (.vBool false)
    else .error "Input should be a valid boolean"
  | some _ => .error "Input should be a valid boolean"

/-- Plain pydantic lax validation of an `int | None` field without a
before-validator (`days_since_release`, `average_playtime`). -/
def validate_plain_int (v : Option RawVal) : Except String ValV :=
  match v with
  | none | some .rnone => .ok .vNone
  | some (.rint n) => .ok (.vInt n)
  | some (.rfloat (.finite q)) =>
    if q.den = 1 then .ok (.vInt q.num)
    else .error "Input should be a valid integer"
  | some (.rstr s) =>
    match parseIntStr s with
    | some n => .ok (.vInt n)
    | none => .error "Input should be a valid integer"
  | some _ => .error "Input should be a valid integer"

/-- Element validation for a `list[str]` field. -/
def strListElems (xs : List RawScalar) : Except String (List String) :=
  xs.mapM (fun x =>
    match x with
    | .sStr s => Except.ok s
    | _ => Except.error "Input should be a valid string")

/-- `GameDataModel.ensure_list` followed by pydantic `list[str]` element
validation (`developers`, `publishers`, `platforms`, `categories`,
`genres`, `tags`, `languages`). -/
def ensure_list_str (v : Option RawVal) : Except String ValV :=
  match v with
  | none | some .rnone => .ok (.vStrList [])
  | some (.rlist xs) => (strListElems xs).map .vStrList
  | some (.rdicts []) => .ok (.vStrList [])
  | some (.rstr s) => .ok (.vStrList [s])
  | some _ => .error "Input should be a valid string"

/-- `GameDataModel.ensure_list` followed by pydantic `list[dict[str, Any]]`
element validation (`content_rating`, `monthly_active_player`,
`achievements_list`). -/
def ensure_list_dict (v : Option RawVal) : Except String ValV :=
  match v with
  | none | some .rnone => .ok (.vDictList [])
  | some (.rdicts ds) => .ok (.vDictList ds)
  | some (.rlist []) => .ok (.vDictList [])
  | some (.rdict d) => .ok (.vDictList [d])
  | some _ => .error "Input should be a valid dictionary"

/-- `parse_release_date` as a field validator. -/
def validate_release_date (v : Option RawVal) : Except String ValV :=
  (parse_release_date v).map (fun od =>
    match od with
    | some d => .vDate d
    | none => .vNone)

/-- Dispatch a field's validation behaviour. -/
def validateField : FieldKind → Option RawVal → Except String ValV
  | .kReqStr, v => ensure_string v
  | .kOptStrCoe, v => ensure_optional_string v
  | .kOptStrStrict, v => validate_plain_str v
  | .kIntBefore, v => handle_integers v
  | .kIntLax, v => validate_plain_int v
  | .kFloatBefore, v => handle_float v
  | .kBool, v => validate_plain_bool v
  | .kStrList, v => ensure_list_str v
  | .kDictList, v => ensure_list_dict v
  | .kDate, v => validate_release_date v

/-- The fields of `GameDataModel` in declaration order, each with its
validation behaviour. -/
def field_table : List (String × FieldKind) :=
  [("steam_appid", .kReqStr),
   ("name", .kOptStrCoe),
   ("developers", .kStrList),
   ("publishers", .kStrList),
   ("type", .kOptStrCoe),
   ("is_free", .kBool),
   ("is_coming_soon", .kBool),
   ("recommendations", .kIntBefore),
   ("discount", .kFloatBefore),
   ("price_currency", .kOptStrStrict),
   ("price_initial", .kFloatBefore),
   ("price_final", .kFloatBefore),
   ("metacritic_score", .kIntBefore),
   ("release_date", .kDate),
   ("days_since_release", .kIntLax),
   ("average_playtime_h", .kFloatBefore),
   ("average_playtime", .kIntLax),
   ("copies_sold", .kIntBefore),
   ("estimated_revenue", .kIntBefore),
   ("owners", .kIntBefore),
   ("followers", .kIntBefore),
   ("early_access", .kBool),
   ("ccu", .kIntBefore),
   ("active_player_24h", .kIntBefore),
   ("peak_active_player_all_time", .kIntBefore),
   ("monthly_active_player", .kDictList),
   ("review_score", .kIntBefore),
   ("review_score_desc", .kOptStrStrict),
   ("total_positive", .kIntBefore),
   ("total_negative", .kIntBefore),
   ("total_reviews", .kIntBefore),
   ("achievements_count", .kIntBefore),
   ("achievements_percentage_average", .kFloatBefore),
   ("achievements_list", .kDictList),
   ("comp_main", .kIntBefore),
   ("comp_plus", .kIntBefore),
   ("comp_100", .kIntBefore),
   ("comp_all", .kIntBefore),
   ("comp_main_count", .kIntBefore),
   ("comp_plus_count", .kIntBefore),
   ("comp_100_count", .kIntBefore),
   ("comp_all_count", .kIntBefore),
   ("invested_co", .kIntBefore),
   ("invested_mp", .kIntBefore),
   ("invested_co_count", .kIntBefore),
   ("invested_mp_count", .kIntBefore),
   ("count_comp", .kIntBefore),
   ("count_speed_run", .kIntBefore),
   ("count_backlog", .kIntBefore),
   ("count_review", .kIntBefore),
   ("count_playing", .kIntBefore),
   ("count_retired", .kIntBefore),
   ("languages", .kStrList),
   ("platforms", .kStrList),
   ("categories", .kStrList),
   ("genres", .kStrList),
   ("tags", .kStrList),
   ("content_rating", .kDictList),
   ("protondb_tier", .kOptStrCoe),
   ("protondb_score", .kFloatBefore),
   ("protondb_trending", .kOptStrCoe),
   ("protondb_confidence", .kOptStrCoe),
   ("protondb_total", .kIntBefore)]

/-- `GameDataModel._RECAP_FIELDS`. -/
def recap_fields : List String :=
  ["steam_appid", "name", "developers", "publishers", "type",
   "release_date", "days_since_release", "price_currency", "price_initial",
   "price_final", "copies_sold", "estimated_revenue", "owners", "followers",
   "total_positive", "total_negative", "total_reviews", "comp_main",
   "comp_plus", "comp_100", "comp_all", "invested_co", "invested_mp",
   "average_playtime", "active_player_24h", "peak_active_player_all_time",
   "achievements_count", "achievements_percentage_average", "categories",
   "genres", "tags", "is_free", "protondb_tier", "early_access",
   "metacritic_score"]

/-- The fields declared with `exclude=True` (dropped from every dump). -/
def excluded_fields : List String := ["discount", "average_playtime_h"]

/-- Run every field's validator against the raw mapping (pydantic model
construction; keys of the raw mapping outside the declared fields are
ignored, matching the default `extra="ignore"` behaviour). -/
def buildFields (raw : List (String × RawVal)) :
    List (String × FieldKind) → Except String (List (String × ValV))
  | [] => .ok []
  | fk :: rest => do
    let v ← validateField fk.2 (alookup raw fk.1)
    let tail ← buildFields raw rest
    return (fk.1, v) :: tail

/-- `GameDataModel.compute_average_playtime`:
`average_playtime = int(average_playtime_h * 3600)` when the hour value is
present. -/
def compute_average_playtime (rec : List (String × ValV)) :
    List (String × ValV) :=
  match alookup rec "average_playtime_h" with
  | some (.vFloat q) =>
      setKey rec "average_playtime" (.vInt (ratTrunc (q * 3600)))
  | _ => rec

/-- `GameDataModel.compute_days_since_release`:
`days_since_release = (datetime.now() - release_date).days` when the
release date is present; `now` is the current time as days since epoch. -/
def compute_days_since_release (now : ℤ) (rec : List (String × ValV)) :
    List (String × ValV) :=
  match alookup rec "release_date" with
  | some (.vDate d) => setKey rec "days_since_release" (.vInt (now - d))
  | _ => rec

/-- `GameDataModel.preprocess_data` (`mode="after"` model validator). -/
def preprocess_data (now : ℤ) (rec : List (String × ValV)) :
    List (String × ValV) :=
  compute_days_since_release now (compute_average_playtime rec)

/-- `GameDataModel(**raw)`: field validation in declaration order followed
by the after-validator. -/
def game_data_model (now : ℤ) (raw : List (String × RawVal)) :
    Except String (List (String × ValV)) :=
  (buildFields raw field_table).map (preprocess_data now)

/-- JSON-mode serialisation of a container scalar. A `nan`/`inf` kept
inside a `dict[str, Any]` field survives into the dump, which is exactly
why such fields are kept out of the recap projection. -/
def jsonifyScalar : RawScalar → JsonScalar
  | .sNone => .jsNull
  | .sStr s => .jsStr s
  | .sInt n => .jsInt n
  | .sFloat f => .jsFloat f
  | .sBool b => .jsBool b

/-- JSON-mode serialisation of a validated field value (datetimes render
as ISO strings). -/
def dumpVal : ValV → JsonVal
  | .vNone => .scalar .jsNull
  | .vStr s => .scalar (.jsStr s)
  | .vInt n => .scalar (.jsInt n)
  | .vFloat q => .scalar (.jsFloat (.finite q))
  | .vBool b => .scalar (.jsBool b)
  | .vDate d => .scalar (.jsStr (isoOfDays d))
  | .vStrList xs => .arr (xs.map .jsStr)
  | .vDictList ds =>
      .arrObj (ds.map (fun d => d.map (fun p => (p.1, jsonifyScalar p.2))))

/-- `model_dump(mode="json")`: every field except the `exclude=True`
ones. -/
def model_dump (rec : List (String × ValV)) : List (String × JsonVal) :=
  rec.filterMap (fun fv =>
    if excluded_fields.contains fv.1 then none
    else some (fv.1, dumpVal fv.2))

/-- `GameDataModel.get_recap` = `model_dump(mode="json",
include=_RECAP_FIELDS)` (no recap field is `exclude=True`). -/
def get_recap (rec : List (String × ValV)) : List (String × JsonVal) :=
  rec.filterMap (fun fv =>
    if recap_fields.contains fv.1 then some (fv.1, dumpVal fv.2)
    else none)

/-- Is a JSON scalar finite (not `nan`/`inf`)? -/
def scalarFinite : JsonScalar → Bool
  | .jsFloat (.finite _) => true
  | .jsFloat _ => false
  | _ => true

/-- Is a JSON value free of non-finite numerics, recursively? -/
def jsonFinite : JsonVal → Bool
  | .scalar v => scalarFinite v
  | .arr xs => xs.all scalarFinite
  | .arrObj ds => ds.all (fun d => d.all (fun p => scalarFinite p.2))

/-! ### Collector orchestration (`collector.py`)

Each source is opaque to the orchestrator beyond
`fetch(identifier) -> SourceResult`; a whole fetch fan-out is therefore
modelled by an oracle `String → RawVal → SourceResult` mapping a source
class name and the identifier it is queried with to its result. The
observability wrapper (`_fetch_with_observability`) is side-effect only and
passes the result through unchanged, so it is the identity here. -/

/-- `SourceResult` of `sources/base.py`: exactly one variant populated. -/
inductive SourceResult where
  | success (data : List (String × RawVal))
  | failure (error : String)
deriving DecidableEq, Repr

/-- Did the source report failure? -/
def isFailure : SourceResult → Bool
  | .failure _ => true
  | .success _ => false

/-- `SourceConfig` of `collector.py`: a source (by class name), the fields
it is authoritative for, and the primary flag. -/
structure SourceConfigM where
  name : String
  fields : List String
  is_primary : Bool
deriving DecidableEq, Repr

/-- Declared fields of `SteamStore` (the primary source). -/
def steamstore_fields : List String :=
  ["steam_appid", "name", "developers", "publishers", "type",
   "price_currency", "price_initial", "price_final", "categories",
   "platforms", "genres", "metacritic_score", "release_date",
   "content_rating", "is_free", "is_coming_soon", "recommendations"]

/-- Declared fields of `Gamalytic`. -/
def gamalytic_fields : List String :=
  ["average_playtime_h", "copies_sold", "estimated_revenue", "owners",
   "languages", "followers", "early_access"]

/-- Declared fields of `SteamSpy`. -/
def steamspy_fields : List String := ["ccu", "tags", "discount"]

/-- Declared fields of `SteamCharts`. -/
def steamcharts_fields : List String :=
  ["active_player_24h", "peak_active_player_all_time",
   "monthly_active_player"]

/-- Declared fields of `SteamReview`. -/
def steamreview_fields : List String :=
  ["review_score", "review_score_desc", "total_positive", "total_negative",
   "total_reviews"]

/-- Declared fields of `SteamAchievements`. -/
def steamachievements_fields : List String :=
  ["achievements_count", "achievements_percentage_average",
   "achievements_list"]

/-- Declared fields of `ProtonDB`. -/
def protondb_fields : List String :=
  ["protondb_tier", "protondb_score", "protondb_trending",
   "protondb_confidence", "protondb_total"]

/-- Declared fields of `HowLongToBeat` (queried by game name). -/
def howlongtobeat_fields : List String :=
  ["comp_main", "comp_plus", "comp_100", "comp_all", "comp_main_count",
   "comp_plus_count", "comp_100_count", "comp_all_count", "invested_co",
   "invested_mp", "invested_co_count", "invested_mp_count", "count_comp",
   "count_speed_run", "count_backlog", "count_review", "review_score",
   "count_playing", "count_retired"]

/-- `Collector._id_based_sources` (`_init_sources_config`), in declaration
order; `SteamStore` is the primary source. -/
def id_based_sources : List SourceConfigM :=
  [⟨"SteamStore", steamstore_fields, true⟩,
   ⟨"Gamalytic", gamalytic_fields, false⟩,
   ⟨"SteamSpy", steamspy_fields, false⟩,
   ⟨"SteamCharts", steamcharts_fields, false⟩,
   ⟨"SteamReview", steamreview_fields, false⟩,
   ⟨"SteamAchievements", steamachievements_fields, false⟩,
   ⟨"ProtonDB", protondb_fields, false⟩]

/-- `Collector._name_based_sources`. -/
def name_based_sources : List SourceConfigM :=
  [⟨"HowLongToBeat", howlongtobeat_fields, false⟩]

/-- All source bindings of one collector. -/
def all_sources : List SourceConfigM := id_based_sources ++ name_based_sources

/-- A Python exception as seen by `get_games_data`'s two `except` clauses:
either a typed `GameInsightsError`, or an untyped exception (`KeyError`
from the merge step, `ValidationError` from model construction). -/
inductive PyErr where
  | gie (e : GameInsightsError)
  | keyError (key : String)
  | validation (message : String)
deriving DecidableEq, Repr

/-- `str(e)` of an untyped exception (`str` of a `KeyError` is the quoted
key). -/
def pyErrStr : PyErr → String
  | .gie e => errMessage e
  | .keyError k => "\x27" ++ k ++ "\x27"
  | .validation m => m

/-- The dict comprehension
`{key: source_data["data"][key] for key in config.fields}`: looks every
declared field up in the success payload, raising `KeyError` at the first
missing one. -/
def gatherFields (data : List (String × RawVal)) :
    List String → Except PyErr (List (String × RawVal))
  | [] => .ok []
  | f :: rest =>
    match alookup data f with
    | some v => (gatherFields data rest).map (fun ps => (f, v) :: ps)
    | none => .error (.keyError f)

/-- `raw_data.update({key: source_data["data"][key] for key in
config.fields})`. -/
def updateFields (acc data : List (String × RawVal)) (fields : List String) :
    Except PyErr (List (String × RawVal)) :=
  (gatherFields data fields).map (fun ps =>
    ps.foldl (fun a p => setKey a p.1 p.2) acc)

/-- The id-keyed merge loop of `Collector._fetch_raw_data`: on success copy
the declared fields, on failure raise through
`_raise_for_fetch_failure` only when propagate mode is selected and the
binding is primary, otherwise continue. -/
def process_id_sources (oracle : String → RawVal → SourceResult)
    (idv : RawVal) (raise_on_primary : Bool) :
    List SourceConfigM → List (String × RawVal) →
      Except PyErr (List (String × RawVal))
  | [], acc => .ok acc
  | c :: rest, acc =>
    match oracle c.name idv with
    | .success data => do
      let acc2 ← updateFields acc data c.fields
      process_id_sources oracle idv raise_on_primary rest acc2
    | .failure err =>
      if raise_on_primary && c.is_primary then
        .error (.gie (raise_for_fetch_failure c.name err true))
      else
        process_id_sources oracle idv raise_on_primary rest acc

/-- The name-keyed merge loop of `Collector._fetch_raw_data`: only
successes are merged, failures are skipped silently (the loop body has no
raise branch at all). -/
def process_name_sources (oracle : String → RawVal → SourceResult)
    (namev : RawVal) :
    List SourceConfigM → List (String × RawVal) →
      Except PyErr (List (String × RawVal))
  | [], acc => .ok acc
  | c :: rest, acc =>
    match oracle c.name namev with
    | .success data => do
      let acc2 ← updateFields acc data c.fields
      process_name_sources oracle namev rest acc2
    | .failure _ => process_name_sources oracle namev rest acc

/-- Python truthiness of a raw value (`if game_name:`). -/
def pyTruthy : RawVal → Bool
  | .rnone => false
  | .rstr s => !s.isEmpty
  | .rint n => n != 0
  | .rfloat (.finite q) => q != 0
  | .rfloat _ => true
  | .rbool b => b
  | .rlist xs => !xs.isEmpty
  | .rdict d => !d.isEmpty
  | .rdicts ds => !ds.isEmpty

/-- `Collector._fetch_raw_data`: seed the accumulator with the identifier,
run the id-keyed loop, then — only when the accumulated `name` is truthy —
the name-keyed loop, and construct the validated record. -/
def fetch_raw_data (oracle : String → RawVal → SourceResult)
    (steam_appid : String) (raise_on_primary_failure : Bool) (now : ℤ) :
    Except PyErr (List (String × ValV)) := do
  let raw0 : List (String × RawVal) :=
    [("steam_appid", RawVal.rstr steam_appid)]
  let raw1 ← process_id_sources oracle (RawVal.rstr steam_appid)
    raise_on_primary_failure id_based_sources raw0
  let raw2 ←
    match alookup raw1 "name" with
    | some nv =>
      if pyTruthy nv then
        process_name_sources oracle nv name_based_sources raw1
      else pure raw1
    | none => pure raw1
  match game_data_model now raw2 with
  | .ok rec => .ok rec
  | .error e => .error (.validation e)

/-- Project an orchestration result to one field's validated value. -/
def resultLookup (r : Except PyErr (List (String × ValV))) (f : String) :
    Option ValV :=
  match r with
  | .ok rec => alookup rec f
  | .error _ => none

/-- `FetchResult` dataclass of `collector.py`. -/
structure FetchResult where
  identifier : String
  success : Bool
  data : Option (List (String × JsonVal))
  error : Option String
deriving DecidableEq, Repr

/-- The two return arities of `Collector.get_games_data`: a bare record
list, or a `(records, all_results)` pair when `include_failures` is
selected. -/
inductive BatchResult where
  | plain (records : List (List (String × JsonVal)))
  | withFailures (records : List (List (String × JsonVal)))
      (results : List FetchResult)
deriving DecidableEq, Repr

/-- The per-identifier loop of `Collector.get_games_data`: fetch, dump
(recap or full), record the outcome; a typed `GameInsightsError` re-raises
when propagate mode is selected and is recorded otherwise; any other
exception is recorded and the loop continues in either mode. -/
def games_loop (oracle : String → RawVal → SourceResult) (now : ℤ)
    (recap raise_on_error : Bool) :
    List String → List (List (String × JsonVal)) → List FetchResult →
      Except GameInsightsError
        (List (List (String × JsonVal)) × List FetchResult)
  | [], result, all_results => .ok (result, all_results)
  | appid :: rest, result, all_results =>
    match fetch_raw_data oracle appid raise_on_error now with
    | .ok game_data =>
      let payload := if recap then get_recap game_data
        else model_dump game_data
      games_loop oracle now recap raise_on_error rest (result ++ [payload])
        (all_results ++ [⟨appid, true, some payload, none⟩])
    | .error (.gie e) =>
      if raise_on_error then .error e
      else
        games_loop oracle now recap raise_on_error rest result
          (all_results ++ [⟨appid, false, none, some (errMessage e)⟩])
    | .error e =>
      games_loop oracle now recap raise_on_error rest result
        (all_results ++ [⟨appid, false, none, some (pyErrStr e)⟩])

/-- `Collector.get_games_data` (the batch orchestrator), for a list of
identifiers: empty-input validation only in propagate mode, then the
per-identifier loop, then the `include_failures`-dependent return shape. -/
def get_games_data (oracle : String → RawVal → SourceResult) (now : ℤ)
    (steam_appids : List String)
    (recap include_failures raise_on_error : Bool) :
    Except GameInsightsError BatchResult :=
  if raise_on_error && steam_appids.isEmpty then
    .error (.invalidRequest "steam_appids must be a non-empty string or list.")
  else
    match games_loop oracle now recap raise_on_error steam_appids [] [] with
    | .ok (result, all_results) =>
      .ok (if include_failures then .withFailures result all_results
        else .plain result)
    | .error e => .error e

/-- Is the orchestration outcome a typed `GameInsightsError`? -/
def isTypedError : Except PyErr (List (String × ValV)) → Bool
  | .error (.gie _) => true
  | _ => false

/-- The value a field of `GameDataModel` takes when the raw mapping does
not provide it (its schema default), as a validated value; `none` for
names that are not fields. -/
def schemaDefault (f : String) : Option ValV :=
  match alookup field_table f with
  | some k =>
    match validateField k none with
    | .ok v => some v
    | .error _ => none
  | none => none

/-- Does validation of this concrete value succeed for the field (used to
state that a source payload is type-acceptable)? -/
def validateOkB (f : String) (v : RawVal) : Bool :=
  match alookup field_table f with
  | some k => (validateField k (some v)).isOk
  | none => true

/-- The accumulator invariant of the absorb-mode fetch: every declared
field's current entry (or absence) passes that field's validation. -/
def accOk (acc : List (String × RawVal)) : Prop :=
  ∀ f k, alookup field_table f = some k →
    (validateField k (alookup acc f)).isOk = true

/-- Message witnessing that classification rule 1 preempts rule 2: it
contains both `"failed to parse"` and `"not found"`, but also the
region phrase. -/
def c5Msg : String :=
  "failed to parse: appid 7 not found, not available in the specified region"

/-- Message witnessing that the extracted hint need not be made of digits:
no character of it is a digit at all. -/
def c6Msg : String := "appid abc is not available in the specified region"

/-- Message witnessing that an HTTP-status-pattern message can classify as
not-found when the region phrase is also present. -/
def c7Msg : String :=
  "status 404: appid 9 not available in the specified region"

/-- C2 counterexample oracle: the primary source reports success with an
empty payload, so the merge step raises an untyped `KeyError`. -/
def c2_oracle : String → RawVal → SourceResult := fun nm _ =>
  if nm = "SteamStore" then .success [] else .failure "nope"

/-- C2/C4 witness oracle: every source unavailable. -/
def c2w_oracle : String → RawVal → SourceResult := fun _ _ =>
  .failure "timeout"

/-- C10 witness oracle: the primary source succeeds with an empty
payload. -/
def c10_oracle : String → RawVal → SourceResult := fun nm _ =>
  if nm = "SteamStore" then .success [] else .failure "nope"

/-- A well-formed payload for a source: every declared field present,
holding `None`. -/
def mk_default_data (fields : List String) : List (String × RawVal) :=
  fields.map (fun f => (f, RawVal.rnone))

/-- C4 counterexample oracle: the primary source succeeds (with a truthy
name, so the name-keyed loop runs), `SteamReview` fails, and
`HowLongToBeat` succeeds and supplies `review_score` — a field also
declared by the failed `SteamReview`. -/
def c4c_oracle : String → RawVal → SourceResult := fun nm _ =>
  if nm = "SteamStore" then
    .success (setKey (mk_default_data steamstore_fields) "name"
      (RawVal.rstr "Mock Game"))
  else if nm = "SteamReview" then .failure "boom"
  else if nm = "HowLongToBeat" then
    .success (setKey (mk_default_data howlongtobeat_fields) "review_score"
      (RawVal.rint 80))
  else .failure "nope"

/-- C4 witness oracle: every source fails. -/
def c4w_oracle : String → RawVal → SourceResult := fun _ _ =>
  .failure "boom"

/-- C9 witness raw mapping. -/
def c9_raw : List (String × RawVal) :=
  [("steam_appid", RawVal.rstr "12345"),
   ("name", RawVal.rstr "Mock Game"),
   ("price_final", RawVal.rfloat (PyFloat.finite (1234 / 100))),
   ("release_date", RawVal.rstr "Jun 15, 2023"),
   ("average_playtime_h", RawVal.rfloat (PyFloat.finite (5 / 2))),
   ("developers", RawVal.rlist [RawScalar.sStr "Mock Dev"]),
   ("is_free", RawVal.rbool false),
   ("copies_sold", RawVal.rstr "1000")]

/-- A successful anchored status-pattern match somewhere in the list makes
the search succeed. -/
theorem searchStatus_of_append (l : List Char) (h : statusAt l = true) :
    ∀ a : List Char, searchStatus (a ++ l) = true := by
  intro a
  induction a with
  | nil =>
    cases l with
    | nil => simp [statusAt, headMatches] at h
    | cons c r => simp [searchStatus, h]
  | cons x xs ih =>
    simp only [List.cons_append, searchStatus, List.append_eq, ih, Bool.or_true]

/-- The `"status code: NNN"` form matches the status pattern at its head. -/
theorem statusAt_code_colon_form (d1 d2 d3 : Char) (b : List Char)
    (hd1 : d1 = '4' ∨ d1 = '5') (hd2 : d2.isDigit = true)
    (hd3 : d3.isDigit = true) :
    statusAt ("status code: ".data ++ [d1, d2, d3] ++ b) = true := by
  rcases hd1 with rfl | rfl <;>
    simp [statusAt, statusTail, checkStatusDigits, headMatches, pyIsSpace,
      List.takeWhile, List.dropWhile, hd2, hd3]

/-- The `"status NNN"` form matches the status pattern at its head. -/
theorem statusAt_space_form (d1 d2 d3 : Char) (b : List Char)
    (hd1 : d1 = '4' ∨ d1 = '5') (hd2 : d2.isDigit = true)
    (hd3 : d3.isDigit = true) :
    statusAt ("status ".data ++ [d1, d2, d3] ++ b) = true := by
  rcases hd1 with rfl | rfl <;>
    simp [statusAt, statusTail, checkStatusDigits, headMatches, pyIsSpace,
      List.takeWhile, List.dropWhile, hd2, hd3]

/-- C1: when a supplementary (non-primary) source's failure is converted to
an exception by `_raise_for_fetch_failure`, the raised exception is never
`GameNotFoundError`; whenever classification yields `GameNotFoundError`, the
raised exception is instead `SourceUnavailableError` carrying the source
name and the original message. -/
theorem c1_supplementary_never_notfound (source_name error_message : String) :
    isGameNotFound (raise_for_fetch_failure source_name error_message false)
        = false ∧
    (∀ identifier msg,
        classify_source_error source_name error_message =
          .gameNotFound identifier msg →
        raise_for_fetch_failure source_name error_message false =
          .sourceUnavailable source_name error_message) := by
  constructor
  · unfold raise_for_fetch_failure
    cases h : classify_source_error source_name error_message <;>
      simp [isGameNotFound]
  · intro identifier msg h
    simp [raise_for_fetch_failure, h]

/-- C1 witness: a concrete supplementary-source failure whose raw text
classifies as not-found is downgraded to `SourceUnavailableError`. -/
theorem c1_witness :
    raise_for_fetch_failure "ProtonDB" "Game 12345 not found on ProtonDB."
        false =
      .sourceUnavailable "ProtonDB" "Game 12345 not found on ProtonDB." :=
  (c1_supplementary_never_notfound "ProtonDB"
      "Game 12345 not found on ProtonDB.").2 "unknown"
    "Game 12345 not found on ProtonDB." (by decide)

/-- C5 counterexample: a message containing both `"failed to parse"` and
`"not found"` that nevertheless classifies as `GameNotFoundError`, because
the region phrase of rule 1 is checked first. -/
theorem c5_counterexample :
    containsSub (pyLower c5Msg) "failed to parse".data = true ∧
    containsSub (pyLower c5Msg) "not found".data = true ∧
    classify_source_error "SteamCharts" c5Msg = .gameNotFound "7" c5Msg := by
  refine ⟨by decide, by decide, by decide⟩

/-- C5 amended: a message that contains both `"failed to parse"` and
`"not found"` (case-insensitively) but does not contain
`"not available in the specified region"` always classifies as
`SourceUnavailableError`, never as `GameNotFoundError`. -/
theorem c5_parse_beats_notfound (source_name error_message : String)
    (hparse :
      containsSub (pyLower error_message) "failed to parse".data = true)
    (hnotfound :
      containsSub (pyLower error_message) "not found".data = true)
    (hregion :
      containsSub (pyLower error_message)
        "not available in the specified region".data = false) :
    classify_source_error source_name error_message =
      .sourceUnavailable source_name error_message := by
  simp [classify_source_error, hparse, hregion]

/-- C5 witness: the parse-error-with-not-found message from the repository's
own tests classifies as `SourceUnavailableError`. -/
theorem c5_witness :
    classify_source_error "SteamCharts"
        "Failed to parse data, game name is not found." =
      .sourceUnavailable "SteamCharts"
        "Failed to parse data, game name is not found." :=
  c5_parse_beats_notfound "SteamCharts"
    "Failed to parse data, game name is not found." (by decide) (by decide)
    (by decide)

/-- C6 counterexample: a region-phrase message containing no digit anywhere,
for which the claim requires the hint `"unknown"`, but the code extracts the
non-digit token `"abc"` (the regex captures `\S+`, not digits). -/
theorem c6_counterexample :
    c6Msg.data.all (fun c => !c.isDigit) = true ∧
    classify_source_error "SteamStore" c6Msg = .gameNotFound "abc" c6Msg ∧
    "abc" ≠ "unknown" := by
  refine ⟨by decide, by decide, by decide⟩

/-- C6 amended: every message containing the region phrase classifies as
`GameNotFoundError` whose identifier hint is the first whitespace-delimited
token following the word `appid` in the lowercased message, with trailing
`.`/`,` characters stripped, or the literal `"unknown"` when the
`appid`-token regex has no match. -/
theorem c6_region_notfound_hint (source_name error_message : String)
    (hregion :
      containsSub (pyLower error_message)
        "not available in the specified region".data = true) :
    classify_source_error source_name error_message =
      .gameNotFound (appidHint (pyLower error_message)) error_message ∧
    (searchToken "appid".data (pyLower error_message) = none →
      appidHint (pyLower error_message) = "unknown") ∧
    (∀ tok, searchToken "appid".data (pyLower error_message) = some tok →
      appidHint (pyLower error_message) = String.mk (rstripDotComma tok)) := by
  refine ⟨by simp [classify_source_error, hregion], ?_, ?_⟩
  · intro h
    simp [appidHint, h]
  · intro tok h
    simp [appidHint, h]

/-- C6 witness: the canonical SteamStore region message extracts the numeric
hint `12345`. -/
theorem c6_witness :
    classify_source_error "SteamStore"
        "appid 12345 is not available in the specified region (us)." =
      .gameNotFound
        (appidHint (pyLower
          "appid 12345 is not available in the specified region (us)."))
        "appid 12345 is not available in the specified region (us)." ∧
    appidHint (pyLower
        "appid 12345 is not available in the specified region (us).") =
      "12345" :=
  ⟨(c6_region_notfound_hint "SteamStore"
      "appid 12345 is not available in the specified region (us)."
      (by decide)).1, by decide⟩

/-- C7 counterexample: a message in the `"status NNN"` form (NNN = 404)
that classifies as `GameNotFoundError`, not `SourceUnavailableError`,
because the region phrase of rule 1 is checked before the HTTP-status
rule. -/
theorem c7_counterexample :
    pyLower c7Msg =
      [] ++ "status ".data ++ ['4', '0', '4'] ++
        ": appid 9 not available in the specified region".data ∧
    searchStatus (pyLower c7Msg) = true ∧
    classify_source_error "SteamStore" c7Msg = .gameNotFound "9" c7Msg := by
  refine ⟨by decide, by decide, by decide⟩

/-- C7 amended: every message containing an HTTP 4xx/5xx status pattern in
the `"status code: NNN"` or `"status NNN"` form, and not containing the
region phrase of rule 1, classifies as `SourceUnavailableError`. -/
theorem c7_http_status_unavailable (source_name error_message : String)
    (a b : List Char) (d1 d2 d3 : Char)
    (hd1 : d1 = '4' ∨ d1 = '5') (hd2 : d2.isDigit = true)
    (hd3 : d3.isDigit = true)
    (hform :
      pyLower error_message = a ++ ("status code: ".data ++ [d1, d2, d3] ++ b)
        ∨
      pyLower error_message = a ++ ("status ".data ++ [d1, d2, d3] ++ b))
    (hregion :
      containsSub (pyLower error_message)
        "not available in the specified region".data = false) :
    classify_source_error source_name error_message =
      .sourceUnavailable source_name error_message := by
  have hsearch : searchStatus (pyLower error_message) = true := by
    rcases hform with hform | hform <;> rw [hform]
    · exact searchStatus_of_append _
        (statusAt_code_colon_form d1 d2 d3 b hd1 hd2 hd3) a
    · exact searchStatus_of_append _
        (statusAt_space_form d1 d2 d3 b hd1 hd2 hd3) a
  simp only [classify_source_error, hregion, Bool.false_eq_true, if_false,
    hsearch]
  split_ifs <;> rfl

/-- C7 witness: `"HTTP status 503 while loading page"` classifies as
`SourceUnavailableError`. -/
theorem c7_witness :
    classify_source_error "ProtonDB" "HTTP status 503 while loading page" =
      .sourceUnavailable "ProtonDB" "HTTP status 503 while loading page" :=
  c7_http_status_unavailable "ProtonDB" "HTTP status 503 while loading page"
    "http ".data " while loading page".data '5' '0' '3' (Or.inr rfl)
    (by decide) (by decide) (Or.inr (by decide)) (by decide)

/-- C8: classification is total — it is a function into the typed outcome
datatype, and any message on which none of the six ordered rules fires
(including the empty message) falls through to the `Generic` variant
carrying the full message. -/
theorem c8_total_fallthrough (source_name error_message : String)
    (h : no_rule_matches error_message = true) :
    classify_source_error source_name error_message =
      .generic error_message := by
  simp only [no_rule_matches, Bool.and_eq_true, Bool.not_eq_true',
    Bool.or_eq_false_iff] at h
  obtain ⟨⟨⟨⟨⟨h1, h2⟩, h3, h4⟩, h5⟩, h6⟩, h7⟩ := h
  simp [classify_source_error, h1, h2, h3, h4, h5, h6, h7]

/-- C8 witness: the empty message matches no rule and classifies as
`Generic` with the (empty) full message; classification does not crash on
empty input. -/
theorem c8_witness :
    no_rule_matches "" = true ∧
    classify_source_error "SteamStore" "" = .generic "" :=
  ⟨by decide, c8_total_fallthrough "SteamStore" "" (by decide)⟩

/-- C3: with an empty identifier list, `get_games_data` in absorb mode
returns `([], [])` when `include_failures` is set and `[]` otherwise, and
in propagate mode raises `InvalidRequestError` before any fetch attempt
(the result never depends on the source oracle). -/
theorem c3_empty_list_policy (oracle : String → RawVal → SourceResult)
    (now : ℤ) (recap include_failures : Bool) :
    get_games_data oracle now [] recap include_failures false =
      .ok (if include_failures then .withFailures [] [] else .plain []) ∧
    get_games_data oracle now [] recap include_failures true =
      .error
        (.invalidRequest "steam_appids must be a non-empty string or list.") := by
  cases include_failures <;> simp [get_games_data, games_loop]

/-- In propagate mode the loop re-raises at the first identifier whose
fetch fails with a typed error, provided no earlier identifier's fetch
failed with a typed error, regardless of the accumulators. -/
theorem games_loop_raises_at_first_typed
    (oracle : String → RawVal → SourceResult) (now : ℤ) (recap : Bool)
    (x : String) (rest : List String) (e : GameInsightsError) :
    ∀ (pre : List String) (result : List (List (String × JsonVal)))
      (all_results : List FetchResult),
      (∀ y ∈ pre, isTypedError (fetch_raw_data oracle y true now) = false) →
      fetch_raw_data oracle x true now = .error (.gie e) →
      games_loop oracle now recap true (pre ++ x :: rest) result
        all_results = .error e := by
  intro pre
  induction pre with
  | nil =>
    intro result all_results _ hx
    simp [games_loop, hx]
  | cons y pre ih =>
    intro result all_results hpre hx
    have hy : isTypedError (fetch_raw_data oracle y true now) = false :=
      hpre y (List.mem_cons_self y pre)
    have hpre' : ∀ z ∈ pre,
        isTypedError (fetch_raw_data oracle z true now) = false :=
      fun z hz => hpre z (List.mem_cons_of_mem y hz)
    cases h : fetch_raw_data oracle y true now with
    | ok g =>
      simp only [List.cons_append, games_loop, h]
      exact ih _ _ hpre' hx
    | error pe =>
      cases pe with
      | gie e' => rw [h] at hy; simp [isTypedError] at hy
      | keyError k =>
        simp only [List.cons_append, games_loop, h]
        exact ih _ _ hpre' hx
      | validation m =>
        simp only [List.cons_append, games_loop, h]
        exact ih _ _ hpre' hx

/-- C2 counterexample: under propagate mode (`raise_on_error=True`) with
an identifier whose fetch fails — here with an untyped `KeyError` — the
batch does not raise: it still returns a `(records, outcomes)` tuple,
because only typed `GameInsightsError`s are re-raised; the untyped
`except Exception` branch absorbs the failure even in propagate mode. -/
theorem c2_counterexample :
    (fetch_raw_data c2_oracle "1" true 0).isOk = false ∧
    isTypedError (fetch_raw_data c2_oracle "1" true 0) = false ∧
    get_games_data c2_oracle 0 ["1"] false true true =
      .ok (.withFailures []
        [⟨"1", false, none, some (pyErrStr (.keyError "steam_appid"))⟩]) :=
  ⟨rfl, rfl, rfl⟩

/-- C2 amended: for every identifier list containing an identifier whose
fetch fails with a typed `GameInsightsError`, all earlier identifiers'
fetches not failing with typed errors, `get_games_data` in propagate mode
raises that typed error and returns nothing — in particular no
`(records, outcomes)` tuple, even when `include_failures=True`; identifiers
whose fetch fails with an untyped exception are recorded and skipped even
in propagate mode. -/
theorem c2_propagate_raises_first (oracle : String → RawVal → SourceResult)
    (now : ℤ) (recap include_failures : Bool) (pre rest : List String)
    (x : String) (e : GameInsightsError)
    (hpre : ∀ y ∈ pre, isTypedError (fetch_raw_data oracle y true now) = false)
    (hx : fetch_raw_data oracle x true now = .error (.gie e)) :
    get_games_data oracle now (pre ++ x :: rest) recap include_failures
      true = .error e := by
  have hne : (pre ++ x :: rest).isEmpty = false := by
    cases pre <;> simp
  simp only [get_games_data, hne, Bool.and_false, Bool.false_eq_true,
    if_false]
  rw [games_loop_raises_at_first_typed oracle now recap x rest e pre [] []
    hpre hx]

/-- C2 witness: a concrete batch in propagate mode raises the typed
`SourceUnavailableError` of its first (and only) identifier. -/
theorem c2_witness :
    get_games_data c2w_oracle 0 ["1"] false true true =
      .error (.sourceUnavailable "SteamStore" "timeout") :=
  c2_propagate_raises_first c2w_oracle 0 false true [] [] "1"
    (.sourceUnavailable "SteamStore" "timeout")
    (fun y hy => absurd hy (List.not_mem_nil y)) rfl

/-- The field-gathering comprehension raises `KeyError` at the first
declared field missing from the success payload. -/
theorem gatherFields_error_at_first_missing (data : List (String × RawVal)) :
    ∀ (fields : List String) (f : String),
      fields.find? (fun g => (alookup data g).isNone) = some f →
      gatherFields data fields = .error (.keyError f) := by
  intro fields
  induction fields with
  | nil => intro f h; simp [List.find?] at h
  | cons g rest ih =>
    intro f h
    cases hg : alookup data g with
    | none =>
      rw [List.find?_cons_of_pos _ (by simp [hg])] at h
      cases h
      simp [gatherFields, hg]
    | some v =>
      rw [List.find?_cons_of_neg _ (by simp [hg])] at h
      have := ih f h
      simp [gatherFields, hg, this, Except.map]

/-- When every declared field is present in the success payload the
gathering comprehension succeeds. -/
theorem gatherFields_ok_of_all_present (data : List (String × RawVal)) :
    ∀ fields : List String,
      (∀ g ∈ fields, (alookup data g).isSome = true) →
      ∃ ps, gatherFields data fields = .ok ps := by
  intro fields
  induction fields with
  | nil => intro _; exact ⟨[], rfl⟩
  | cons g rest ih =>
    intro h
    have hg := h g (List.mem_cons_self g rest)
    cases hgl : alookup data g with
    | none => rw [hgl] at hg; simp at hg
    | some v =>
      obtain ⟨ps, hps⟩ := ih (fun z hz => h z (List.mem_cons_of_mem g hz))
      exact ⟨(g, v) :: ps, by simp [gatherFields, hgl, hps, Except.map]⟩

/-- Binding a failed `Except` computation short-circuits. -/
theorem except_bind_error {ε α β : Type} (e : ε) (f : α → Except ε β) :
    (Except.error e >>= f) = Except.error e := rfl

/-- Binding a successful `Except` computation applies the continuation. -/
theorem except_bind_ok {ε α β : Type} (a : α) (f : α → Except ε β) :
    (Except.ok a >>= f) = f a := rfl

/-- The id-keyed loop raises the `KeyError` of the first source whose
success payload misses a declared field, provided the earlier sources
succeed with complete payloads. -/
theorem process_id_error_at (oracle : String → RawVal → SourceResult)
    (idv : RawVal) (raise_on_primary : Bool) (c : SourceConfigM)
    (rest : List SourceConfigM) (data : List (String × RawVal)) (f : String)
    (hc : oracle c.name idv = .success data)
    (hfind : c.fields.find? (fun g => (alookup data g).isNone) = some f) :
    ∀ pre : List SourceConfigM,
      (∀ c' ∈ pre, ∃ d, oracle c'.name idv = .success d
        ∧ ∀ g ∈ c'.fields, (alookup d g).isSome = true) →
      ∀ acc, process_id_sources oracle idv raise_on_primary
        (pre ++ c :: rest) acc = .error (.keyError f) := by
  intro pre
  induction pre with
  | nil =>
    intro _ acc
    have hup : updateFields acc data c.fields = .error (.keyError f) := by
      simp [updateFields, gatherFields_error_at_first_missing data c.fields
        f hfind, Except.map]
    simp [process_id_sources, hc, hup, except_bind_error]
  | cons c' pre' ih =>
    intro hpre acc
    obtain ⟨d, hd, hall⟩ := hpre c' (List.mem_cons_self c' pre')
    obtain ⟨ps, hps⟩ := gatherFields_ok_of_all_present d c'.fields hall
    have ih' := ih (fun z hz => hpre z (List.mem_cons_of_mem c' hz))
    simp only [List.cons_append, process_id_sources, hd, updateFields,
      hps, Except.map, except_bind_ok]
    exact ih' _

/-- C10: the merge step of `_fetch_raw_data` copies every declared field
of a successful source by direct key lookup; if a success payload lacks a
declared field, `_fetch_raw_data` raises an uncaught `KeyError` naming the
first missing field — so a well-formed `Success` result must contain every
declared field. Stated for the id-keyed loop: earlier sources succeed with
complete payloads, source `c` succeeds with a payload missing field `f`. -/
theorem c10_missing_declared_field_keyerror
    (oracle : String → RawVal → SourceResult) (appid : String) (now : ℤ)
    (raise_on_primary_failure : Bool) (pre : List SourceConfigM)
    (c : SourceConfigM) (rest : List SourceConfigM)
    (data : List (String × RawVal)) (f : String)
    (hsplit : id_based_sources = pre ++ c :: rest)
    (hpre : ∀ c' ∈ pre, ∃ d, oracle c'.name (RawVal.rstr appid) = .success d
      ∧ ∀ g ∈ c'.fields, (alookup d g).isSome = true)
    (hc : oracle c.name (RawVal.rstr appid) = .success data)
    (hfind : c.fields.find? (fun g => (alookup data g).isNone) = some f) :
    fetch_raw_data oracle appid raise_on_primary_failure now =
      .error (.keyError f) := by
  have herr := process_id_error_at oracle (RawVal.rstr appid)
    raise_on_primary_failure c rest data f hc hfind pre hpre
    [("steam_appid", RawVal.rstr appid)]
  rw [← hsplit] at herr
  simp only [fetch_raw_data, herr, except_bind_error]

/-- A list of strings dumps to an all-finite JSON array. -/
theorem strList_dump_finite (xs : List String) :
    jsonFinite (dumpVal (.vStrList xs)) = true := by
  simp only [dumpVal, jsonFinite, List.all_eq_true]
  intro x hx
  obtain ⟨s, _, rfl⟩ := List.mem_map.mp hx
  rfl

/-- `handle_integers` only produces null or integer values, whose dumps are
finite. -/
theorem handle_integers_finite (o : Option RawVal) (v : ValV)
    (h : handle_integers o = .ok v) : jsonFinite (dumpVal v) = true := by
  rcases o with _ | w
  · cases h; rfl
  · rcases w with _ | s | n | f | b | xs | d | ds
    · cases h; rfl
    · rcases hp : parseIntStr s with _ | n <;>
        simp only [handle_integers, hp] at h <;> cases h <;> rfl
    · cases h; rfl
    · rcases f with q | _ | _ | _
      · cases h; rfl
      · cases h; rfl
      · exact Except.noConfusion h
      · exact Except.noConfusion h
    · cases h; rfl
    · cases h; rfl
    · cases h; rfl
    · cases h; rfl

/-- `handle_float` only produces null or finite float values. -/
theorem handle_float_finite (o : Option RawVal) (v : ValV)
    (h : handle_float o = .ok v) : jsonFinite (dumpVal v) = true := by
  rcases o with _ | w
  · cases h; rfl
  · rcases w with _ | s | n | f | b | xs | d | ds
    · cases h; rfl
    · rcases hp : parseFloatStr s with _ | pf
      · simp only [handle_float, hp] at h; cases h; rfl
      · rcases pf with q | _ | _ | _ <;>
          simp only [handle_float, hp] at h <;> cases h <;> rfl
    · cases h; rfl
    · rcases f with q | _ | _ | _ <;> cases h <;> rfl
    · cases h; rfl
    · cases h; rfl
    · cases h; rfl
    · cases h; rfl

/-- `ensure_string` only produces string values. -/
theorem ensure_string_finite (o : Option RawVal) (v : ValV)
    (h : ensure_string o = .ok v) : jsonFinite (dumpVal v) = true := by
  rcases o with _ | w
  · exact Except.noConfusion h
  · rcases w with _ | s | n | f | b | xs | d | ds <;> cases h <;> rfl

/-- `ensure_optional_string` only produces null or string values. -/
theorem ensure_optional_string_finite (o : Option RawVal) (v : ValV)
    (h : ensure_optional_string o = .ok v) : jsonFinite (dumpVal v) = true := by
  rcases o with _ | w
  · cases h; rfl
  · rcases w with _ | s | n | f | b | xs | d | ds <;> cases h <;> rfl

/-- Plain string validation only produces null or string values. -/
theorem validate_plain_str_finite (o : Option RawVal) (v : ValV)
    (h : validate_plain_str o = .ok v) : jsonFinite (dumpVal v) = true := by
  rcases o with _ | w
  · cases h; rfl
  · rcases w with _ | s | n | f | b | xs | d | ds
    · cases h; rfl
    · cases h; rfl
    · exact Except.noConfusion h
    · exact Except.noConfusion h
    · exact Except.noConfusion h
    · exact Except.noConfusion h
    · exact Except.noConfusion h
    · exact Except.noConfusion h

/-- Plain bool validation only produces null or boolean values. -/
theorem validate_plain_bool_finite (o : Option RawVal) (v : ValV)
    (h : validate_plain_bool o = .ok v) : jsonFinite (dumpVal v) = true := by
  rcases o with _ | w
  · cases h; rfl
  · rcases w with _ | s | n | f | b | xs | d | ds
    · cases h; rfl
    · simp only [validate_plain_bool] at h
      split_ifs at h <;> first | (cases h; rfl) | exact Except.noConfusion h
    · simp only [validate_plain_bool] at h
      split_ifs at h <;> first | (cases h; rfl) | exact Except.noConfusion h
    · rcases f with q | _ | _ | _
      · simp only [validate_plain_bool] at h
        split_ifs at h <;> first | (cases h; rfl) | exact Except.noConfusion h
      · exact Except.noConfusion h
      · exact Except.noConfusion h
      · exact Except.noConfusion h
    · cases h; rfl
    · exact Except.noConfusion h
    · exact Except.noConfusion h
    · exact Except.noConfusion h

/-- Plain int validation only produces null or integer values. -/
theorem validate_plain_int_finite (o : Option RawVal) (v : ValV)
    (h : validate_plain_int o = .ok v) : jsonFinite (dumpVal v) = true := by
  rcases o with _ | w
  · cases h; rfl
  · rcases w with _ | s | n | f | b | xs | d | ds
    · cases h; rfl
    · rcases hp : parseIntStr s with _ | n <;>
        simp only [validate_plain_int, hp] at h
      · exact Except.noConfusion h
      · cases h; rfl
    · cases h; rfl
    · rcases f with q | _ | _ | _
      · simp only [validate_plain_int] at h
        split_ifs at h <;> first | (cases h; rfl) | exact Except.noConfusion h
      · exact Except.noConfusion h
      · exact Except.noConfusion h
      · exact Except.noConfusion h
    · exact Except.noConfusion h
    · exact Except.noConfusion h
    · exact Except.noConfusion h
    · exact Except.noConfusion h

/-- List-of-strings validation only produces all-string lists. -/
theorem ensure_list_str_finite (o : Option RawVal) (v : ValV)
    (h : ensure_list_str o = .ok v) : jsonFinite (dumpVal v) = true := by
  rcases o with _ | w
  · cases h; exact strList_dump_finite []
  · rcases w with _ | s | n | f | b | xs | d | ds
    · cases h; exact strList_dump_finite []
    · cases h; exact strList_dump_finite [s]
    · exact Except.noConfusion h
    · exact Except.noConfusion h
    · exact Except.noConfusion h
    · rcases hse : strListElems xs with e | l <;>
        simp only [ensure_list_str, hse, Except.map] at h
      · exact Except.noConfusion h
      · cases h; exact strList_dump_finite l
    · exact Except.noConfusion h
    · rcases ds with _ | ⟨d0, ds'⟩
      · cases h; exact strList_dump_finite []
      · exact Except.noConfusion h

/-- Release-date validation only produces null or datetime values. -/
theorem validate_release_date_finite (o : Option RawVal) (v : ValV)
    (h : validate_release_date o = .ok v) : jsonFinite (dumpVal v) = true := by
  rcases hp : parse_release_date o with e | od <;>
    simp only [validate_release_date, hp, Except.map] at h
  · exact Except.noConfusion h
  · rcases od with _ | d <;> cases h <;> rfl

/-- Every field validator except the `list[dict]` one produces a value
whose JSON dump is free of non-finite numerics. -/
theorem validateField_finite (k : FieldKind) (o : Option RawVal) (v : ValV)
    (h : validateField k o = .ok v) :
    k = .kDictList ∨ jsonFinite (dumpVal v) = true := by
  cases k
  case kReqStr => exact Or.inr (ensure_string_finite o v h)
  case kOptStrCoe => exact Or.inr (ensure_optional_string_finite o v h)
  case kOptStrStrict => exact Or.inr (validate_plain_str_finite o v h)
  case kIntBefore => exact Or.inr (handle_integers_finite o v h)
  case kIntLax => exact Or.inr (validate_plain_int_finite o v h)
  case kFloatBefore => exact Or.inr (handle_float_finite o v h)
  case kBool => exact Or.inr (validate_plain_bool_finite o v h)
  case kStrList => exact Or.inr (ensure_list_str_finite o v h)
  case kDictList => exact Or.inl rfl
  case kDate => exact Or.inr (validate_release_date_finite o v h)

/-- Every entry of a constructed record corresponds to a declared field and
passes its validator on the raw mapping. -/
theorem buildFields_mem (raw : List (String × RawVal)) :
    ∀ (table : List (String × FieldKind)) (rec : List (String × ValV)),
      buildFields raw table = .ok rec →
      ∀ p ∈ rec, ∃ k, (p.1, k) ∈ table ∧
        validateField k (alookup raw p.1) = .ok p.2 := by
  intro table
  induction table with
  | nil => intro rec h p hp; cases h; cases hp
  | cons fk rest ih =>
    intro rec h p hp
    rcases hv : validateField fk.2 (alookup raw fk.1) with e | v <;>
      simp only [buildFields, hv, except_bind_error, except_bind_ok] at h
    · exact Except.noConfusion h
    · rcases ht : buildFields raw rest with e | tail <;>
        rw [ht] at h
      · exact Except.noConfusion h
      · simp only [except_bind_ok] at h
        cases h
        rcases List.mem_cons.mp hp with rfl | hmem
        · exact ⟨fk.2, List.mem_cons_self _ _, hv⟩
        · obtain ⟨k, hk, hval⟩ := ih tail ht p hmem
          exact ⟨k, List.mem_cons_of_mem _ hk, hval⟩

/-- Entries after a `setKey` are old entries or the new pair. -/
theorem setKey_mem {α : Type} (key : String) (v : α) :
    ∀ (l : List (String × α)) (p : String × α),
      p ∈ setKey l key v → p ∈ l ∨ p = (key, v) := by
  intro l
  induction l with
  | nil =>
    intro p hp
    simp only [setKey] at hp
    exact Or.inr (List.mem_singleton.mp hp)
  | cons q rest ih =>
    intro p hp
    simp only [setKey] at hp
    split_ifs at hp
    · rcases List.mem_cons.mp hp with rfl | hmem
      · exact Or.inr rfl
      · exact Or.inl (List.mem_cons_of_mem _ hmem)
    · rcases List.mem_cons.mp hp with rfl | hmem
      · exact Or.inl (List.mem_cons_self _ _)
      · rcases ih p hmem with h | h
        · exact Or.inl (List.mem_cons_of_mem _ h)
        · exact Or.inr h

/-- Entries after the after-validator are original entries or freshly
computed integers. -/
theorem preprocess_data_mem (now : ℤ) (rec : List (String × ValV))
    (p : String × ValV) (hp : p ∈ preprocess_data now rec) :
    p ∈ rec ∨ ∃ s n, p = (s, ValV.vInt n) := by
  have step1 : ∀ r (q : String × ValV), q ∈ compute_average_playtime r →
      q ∈ r ∨ ∃ s n, q = (s, ValV.vInt n) := by
    intro r q hq
    unfold compute_average_playtime at hq
    split at hq
    · rcases setKey_mem _ _ r q hq with h | h
      · exact Or.inl h
      · exact Or.inr ⟨_, _, h⟩
    · exact Or.inl hq
  have step2 : ∀ r (q : String × ValV), q ∈ compute_days_since_release now r →
      q ∈ r ∨ ∃ s n, q = (s, ValV.vInt n) := by
    intro r q hq
    unfold compute_days_since_release at hq
    split at hq
    · rcases setKey_mem _ _ r q hq with h | h
      · exact Or.inl h
      · exact Or.inr ⟨_, _, h⟩
    · exact Or.inl hq
  rcases step2 _ _ hp with h | h
  · exact step1 _ _ h
  · exact Or.inr h

/-- No recap field is a `list[dict]` field. -/
theorem recap_kind_not_dict :
    ∀ fk ∈ field_table, recap_fields.contains fk.1 = true →
      fk.2 ≠ FieldKind.kDictList := by decide

/-- C9: the reduced projection of every raw mapping accepted by record
construction contains no key outside the static recap field set and no
non-finite numeric value (recursively through arrays and objects). -/
theorem c9_recap_keys_finite (raw : List (String × RawVal)) (now : ℤ)
    (rec : List (String × ValV)) (h : game_data_model now raw = .ok rec) :
    ∀ p ∈ get_recap rec,
      recap_fields.contains p.1 = true ∧ jsonFinite p.2 = true := by
  rcases hb : buildFields raw field_table with e | r0 <;>
    simp only [game_data_model, hb, Except.map] at h
  · exact Except.noConfusion h
  cases h
  intro p hp
  obtain ⟨fv, hfv, hpeq⟩ := List.mem_filterMap.mp hp
  split_ifs at hpeq with hcond
  · simp only [Option.some.injEq] at hpeq
    subst hpeq
    refine ⟨hcond, ?_⟩
    rcases preprocess_data_mem now r0 fv hfv with hmem | ⟨s, n, rfl⟩
    · obtain ⟨k, hk, hval⟩ := buildFields_mem raw field_table r0 hb fv hmem
      rcases validateField_finite k _ _ hval with rfl | hfin
      · exact absurd rfl (recap_kind_not_dict (fv.1, .kDictList) hk hcond)
      · exact hfin
    · rfl

/-- C9 witness: a concrete accepted raw mapping whose recap projection is
evaluated and checked key-by-key. -/
theorem c9_witness :
    ((get_recap ((game_data_model 19523 c9_raw).toOption.getD [])).all
      (fun p => recap_fields.contains p.1 && jsonFinite p.2)) = true := by
  have h : game_data_model 19523 c9_raw =
      .ok ((game_data_model 19523 c9_raw).toOption.getD []) := rfl
  have hmain := c9_recap_keys_finite c9_raw 19523 _ h
  rw [List.all_eq_true]
  intro p hp
  have hres := hmain p hp
  simp only [hres.1, hres.2, Bool.and_self]

/-- A successful lookup exposes a list entry. -/
theorem alookup_mem {α : Type} :
    ∀ (l : List (String × α)) (f : String) (v : α),
      alookup l f = some v → (f, v) ∈ l := by
  intro l
  induction l with
  | nil => intro f v h; exact Option.noConfusion h
  | cons q rest ih =>
    intro f v h
    simp only [alookup] at h
    split_ifs at h with hq
    · cases h
      subst hq
      exact List.mem_cons_self _ _
    · exact List.mem_cons_of_mem _ (ih f v h)

/-- Lookup of the freshly written key. -/
theorem alookup_setKey_self {α : Type} :
    ∀ (l : List (String × α)) (key : String) (v : α),
      alookup (setKey l key v) key = some v := by
  intro l
  induction l with
  | nil => intro key v; simp [setKey, alookup]
  | cons q rest ih =>
    intro key v
    simp only [setKey]
    split_ifs with hq
    · simp [alookup]
    · simp only [alookup, hq, if_neg hq]
      exact ih key v

/-- Lookup of a different key is unchanged by `setKey`. -/
theorem alookup_setKey_other {α : Type} :
    ∀ (l : List (String × α)) (key : String) (v : α) (f : String),
      f ≠ key → alookup (setKey l key v) f = alookup l f := by
  intro l
  induction l with
  | nil =>
    intro key v f hf
    have hkf : ¬key = f := fun h => hf h.symm
    simp [setKey, alookup, hkf]
  | cons q rest ih =>
    intro key v f hf
    have hkf : ¬key = f := fun h => hf h.symm
    simp only [setKey]
    split_ifs with hq
    · subst hq
      simp [alookup, hkf]
    · simp only [alookup]
      split_ifs with hfq
      · rfl
      · exact ih key v f hf

/-- Every pair produced by the gathering comprehension is a declared field
paired with its payload value. -/
theorem gatherFields_keys (data : List (String × RawVal)) :
    ∀ (fields : List String) (ps : List (String × RawVal)),
      gatherFields data fields = .ok ps →
      ∀ p ∈ ps, p.1 ∈ fields ∧ alookup data p.1 = some p.2 := by
  intro fields
  induction fields with
  | nil =>
    intro ps h p hp
    cases h
    cases hp
  | cons g rest ih =>
    intro ps h p hp
    rcases hg : alookup data g with _ | v <;>
      simp only [gatherFields, hg, Except.map] at h
    · exact Except.noConfusion h
    · rcases hr : gatherFields data rest with e | ps' <;> rw [hr] at h
      · exact Except.noConfusion h
      · simp only [Except.map] at h
        cases h
        rcases List.mem_cons.mp hp with rfl | hmem
        · exact ⟨List.mem_cons_self _ _, hg⟩
        · obtain ⟨h1, h2⟩ := ih ps' hr p hmem
          exact ⟨List.mem_cons_of_mem _ h1, h2⟩

/-- After folding a pair list into the accumulator with `setKey`, a key's
value is either unchanged or one of the written pairs. -/
theorem alookup_foldl_setKey {α : Type} :
    ∀ (ps : List (String × α)) (acc : List (String × α)) (f : String),
      alookup (ps.foldl (fun a p => setKey a p.1 p.2) acc) f = alookup acc f
        ∨
      ∃ w, (f, w) ∈ ps ∧
        alookup (ps.foldl (fun a p => setKey a p.1 p.2) acc) f = some w := by
  intro ps
  induction ps with
  | nil => intro acc f; exact Or.inl rfl
  | cons p rest ih =>
    rcases p with ⟨pk, pv⟩
    intro acc f
    simp only [List.foldl_cons]
    rcases ih (setKey acc pk pv) f with h | ⟨w, hw, h⟩
    · by_cases hf : f = pk
      · subst hf
        rw [alookup_setKey_self] at h
        exact Or.inr ⟨pv, List.mem_cons_self _ _, h⟩
      · rw [alookup_setKey_other acc pk pv f hf] at h
        exact Or.inl h
    · exact Or.inr ⟨w, List.mem_cons_of_mem _ hw, h⟩

/-- A key not among the declared fields is untouched by the merge
update. -/
theorem updateFields_lookup_not_declared (acc data : List (String × RawVal))
    (fields : List String) (acc' : List (String × RawVal))
    (h : updateFields acc data fields = .ok acc') (f : String)
    (hf : f ∉ fields) : alookup acc' f = alookup acc f := by
  rcases hg : gatherFields data fields with e | ps <;>
    simp only [updateFields, hg, Except.map] at h
  · exact Except.noConfusion h
  · cases h
    rcases alookup_foldl_setKey ps acc f with h | ⟨w, hw, h⟩
    · exact h
    · exact absurd (gatherFields_keys data fields ps hg (f, w) hw).1 hf

/-- The merge update preserves the accumulator invariant when the payload
is well formed and type-acceptable. -/
theorem updateFields_accOk (acc data : List (String × RawVal))
    (fields : List String) (acc' : List (String × RawVal))
    (h : updateFields acc data fields = .ok acc')
    (hacc : accOk acc)
    (hdata : ∀ g ∈ fields, ∃ v, alookup data g = some v
      ∧ validateOkB g v = true) : accOk acc' := by
  intro f k hk
  rcases hg : gatherFields data fields with e | ps <;>
    simp only [updateFields, hg, Except.map] at h
  · exact Except.noConfusion h
  · cases h
    rcases alookup_foldl_setKey ps acc f with hcase | ⟨w, hw, hcase⟩
    · rw [hcase]
      exact hacc f k hk
    · obtain ⟨hmemf, hlookd⟩ := gatherFields_keys data fields ps hg (f, w) hw
      obtain ⟨v, hv, hvok⟩ := hdata f hmemf
      rw [hlookd] at hv
      cases hv
      rw [hcase]
      unfold validateOkB at hvok
      rw [hk] at hvok
      exact hvok

/-- Each table entry is what looking its own key up yields (the table has
no duplicate keys). -/
theorem field_table_self :
    ∀ fk ∈ field_table, alookup field_table fk.1 = some fk.2 := by decide

/-- Only `steam_appid` is a required string field. -/
theorem table_kind_nonreq :
    ∀ fk ∈ field_table, fk.1 = "steam_appid" ∨ fk.2 ≠ FieldKind.kReqStr := by
  decide

/-- Every field declared by some source binding is a model field. -/
theorem declared_in_table :
    ∀ c ∈ all_sources, ∀ f ∈ c.fields,
      (alookup field_table f).isSome = true := by decide

/-- No source binding declares one of the two computed fields. -/
theorem declared_not_computed :
    ∀ c ∈ all_sources, ∀ f ∈ c.fields,
      f ≠ "average_playtime" ∧ f ≠ "days_since_release" := by decide

/-- Every optional field accepts absence (yielding its schema default). -/
theorem validateField_none_ok :
    ∀ k : FieldKind, k ≠ .kReqStr → (validateField k none).isOk = true := by
  intro k hk
  cases k <;> try rfl
  exact absurd rfl hk

/-- The seeded accumulator `{"steam_appid": identifier}` satisfies the
invariant. -/
theorem seed_accOk (appid : String) :
    accOk [("steam_appid", RawVal.rstr appid)] := by
  intro f k hk
  by_cases hf : f = "steam_appid"
  · subst hf
    have hkk : alookup field_table "steam_appid" = some FieldKind.kReqStr :=
      by decide
    rw [hkk] at hk
    cases hk
    rfl
  · have hsf : ¬"steam_appid" = f := fun h => hf h.symm
    have hseed : alookup [("steam_appid", RawVal.rstr appid)] f = none := by
      simp [alookup, hsf]
    rw [hseed]
    rcases table_kind_nonreq (f, k) (alookup_mem field_table f k hk) with
      h | h
    · exact absurd h hf
    · exact validateField_none_ok k h

/-- Record construction succeeds when every field validates. -/
theorem buildFields_ok_of_all (raw : List (String × RawVal)) :
    ∀ table : List (String × FieldKind),
      (∀ fk ∈ table, (validateField fk.2 (alookup raw fk.1)).isOk = true) →
      ∃ rec, buildFields raw table = .ok rec := by
  intro table
  induction table with
  | nil => intro _; exact ⟨[], rfl⟩
  | cons fk rest ih =>
    intro h
    have hfk := h fk (List.mem_cons_self fk rest)
    rcases hv : validateField fk.2 (alookup raw fk.1) with e | v
    · rw [hv] at hfk; exact Bool.noConfusion hfk
    · obtain ⟨tail, htail⟩ := ih (fun z hz => h z (List.mem_cons_of_mem fk hz))
      exact ⟨(fk.1, v) :: tail,
        by simp only [buildFields, hv, htail, except_bind_ok]; rfl⟩

/-- A constructed record's value at a declared field is exactly the
field's validator applied to the raw mapping's entry. -/
theorem buildFields_lookup (raw : List (String × RawVal)) :
    ∀ (table : List (String × FieldKind)) (rec : List (String × ValV)),
      buildFields raw table = .ok rec →
      ∀ f k, alookup table f = some k →
        ∃ v, validateField k (alookup raw f) = .ok v ∧
          alookup rec f = some v := by
  intro table
  induction table with
  | nil => intro rec h f k hk; exact Option.noConfusion hk
  | cons fk rest ih =>
    intro rec h f k hk
    rcases hv : validateField fk.2 (alookup raw fk.1) with e | v0 <;>
      simp only [buildFields, hv, except_bind_error, except_bind_ok] at h
    · exact Except.noConfusion h
    · rcases ht : buildFields raw rest with e | tail <;> rw [ht] at h
      · exact Except.noConfusion h
      · simp only [except_bind_ok] at h
        cases h
        simp only [alookup] at hk ⊢
        split_ifs at hk ⊢ with hkey
        · cases hk
          exact ⟨v0, by rw [← hkey]; exact hv, rfl⟩
        · exact ih tail ht f k hk

/-- The after-validator does not move any field other than the two it
computes. -/
theorem alookup_preprocess_other (now : ℤ) (rec : List (String × ValV))
    (f : String) (h1 : f ≠ "average_playtime")
    (h2 : f ≠ "days_since_release") :
    alookup (preprocess_data now rec) f = alookup rec f := by
  unfold preprocess_data
  have hstep1 : alookup (compute_average_playtime rec) f = alookup rec f := by
    unfold compute_average_playtime
    split
    · exact alookup_setKey_other rec "average_playtime" _ f h1
    · rfl
  unfold compute_days_since_release
  split
  · rw [alookup_setKey_other _ "days_since_release" _ f h2]
    exact hstep1
  · exact hstep1

/-- The id-keyed loop in absorb mode: never raises, keeps the accumulator
invariant, and leaves untouched every field that only failing sources
declare. -/
theorem process_id_absorb (oracle : String → RawVal → SourceResult)
    (idv : RawVal) :
    ∀ (cfgs : List SourceConfigM) (acc : List (String × RawVal)),
      (∀ c ∈ cfgs, ∀ d, oracle c.name idv = .success d →
        ∀ g ∈ c.fields, ∃ v, alookup d g = some v
          ∧ validateOkB g v = true) →
      accOk acc →
      ∃ acc', process_id_sources oracle idv false cfgs acc = .ok acc' ∧
        accOk acc' ∧
        ∀ f, (∀ c ∈ cfgs, f ∈ c.fields →
            isFailure (oracle c.name idv) = true) →
          alookup acc' f = alookup acc f := by
  intro cfgs
  induction cfgs with
  | nil => intro acc _ hacc; exact ⟨acc, rfl, hacc, fun _ _ => rfl⟩
  | cons c rest ih =>
    intro acc hcfg hacc
    rcases ho : oracle c.name idv with data | err
    · have hdata := hcfg c (List.mem_cons_self c rest) data ho
      obtain ⟨ps, hps⟩ := gatherFields_ok_of_all_present data c.fields
        (fun g hg => by
          obtain ⟨v, hv, _⟩ := hdata g hg
          rw [hv]; rfl)
      have hupd : updateFields acc data c.fields =
          .ok (ps.foldl (fun a p => setKey a p.1 p.2) acc) := by
        simp only [updateFields, hps, Except.map]
      have hacc2 := updateFields_accOk acc data c.fields _ hupd hacc hdata
      obtain ⟨acc', hrun, hacc', hpres⟩ := ih _
        (fun z hz => hcfg z (List.mem_cons_of_mem c hz)) hacc2
      refine ⟨acc', ?_, hacc', ?_⟩
      · simp only [process_id_sources, ho, hupd, except_bind_ok, hrun]
      · intro f hfail
        have hnotc : f ∉ c.fields := by
          intro hmem
          have := hfail c (List.mem_cons_self c rest) hmem
          rw [ho] at this
          exact Bool.noConfusion this
        rw [hpres f (fun z hz hzf =>
          hfail z (List.mem_cons_of_mem c hz) hzf)]
        exact updateFields_lookup_not_declared acc data c.fields _ hupd f
          hnotc
    · obtain ⟨acc', hrun, hacc', hpres⟩ := ih acc
        (fun z hz => hcfg z (List.mem_cons_of_mem c hz)) hacc
      refine ⟨acc', ?_, hacc', ?_⟩
      · simp only [process_id_sources, ho, Bool.false_and, Bool.false_eq_true,
          if_false, hrun]
      · intro f hfail
        exact hpres f (fun z hz hzf => hfail z (List.mem_cons_of_mem c hz) hzf)

/-- The name-keyed loop: never raises (it has no raise branch at all),
keeps the accumulator invariant, and leaves untouched every field that
only failing sources declare. -/
theorem process_name_absorb (oracle : String → RawVal → SourceResult)
    (namev : RawVal) :
    ∀ (cfgs : List SourceConfigM) (acc : List (String × RawVal)),
      (∀ c ∈ cfgs, ∀ d, oracle c.name namev = .success d →
        ∀ g ∈ c.fields, ∃ v, alookup d g = some v
          ∧ validateOkB g v = true) →
      accOk acc →
      ∃ acc', process_name_sources oracle namev cfgs acc = .ok acc' ∧
        accOk acc' ∧
        ∀ f, (∀ c ∈ cfgs, f ∈ c.fields →
            isFailure (oracle c.name namev) = true) →
          alookup acc' f = alookup acc f := by
  intro cfgs
  induction cfgs with
  | nil => intro acc _ hacc; exact ⟨acc, rfl, hacc, fun _ _ => rfl⟩
  | cons c rest ih =>
    intro acc hcfg hacc
    rcases ho : oracle c.name namev with data | err
    · have hdata := hcfg c (List.mem_cons_self c rest) data ho
      obtain ⟨ps, hps⟩ := gatherFields_ok_of_all_present data c.fields
        (fun g hg => by
          obtain ⟨v, hv, _⟩ := hdata g hg
          rw [hv]; rfl)
      have hupd : updateFields acc data c.fields =
          .ok (ps.foldl (fun a p => setKey a p.1 p.2) acc) := by
        simp only [updateFields, hps, Except.map]
      have hacc2 := updateFields_accOk acc data c.fields _ hupd hacc hdata
      obtain ⟨acc', hrun, hacc', hpres⟩ := ih _
        (fun z hz => hcfg z (List.mem_cons_of_mem c hz)) hacc2
      refine ⟨acc', ?_, hacc', ?_⟩
      · simp only [process_name_sources, ho, hupd, except_bind_ok, hrun]
      · intro f hfail
        have hnotc : f ∉ c.fields := by
          intro hmem
          have := hfail c (List.mem_cons_self c rest) hmem
          rw [ho] at this
          exact Bool.noConfusion this
        rw [hpres f (fun z hz hzf =>
          hfail z (List.mem_cons_of_mem c hz) hzf)]
        exact updateFields_lookup_not_declared acc data c.fields _ hupd f
          hnotc
    · obtain ⟨acc', hrun, hacc', hpres⟩ := ih acc
        (fun z hz => hcfg z (List.mem_cons_of_mem c hz)) hacc
      refine ⟨acc', ?_, hacc', ?_⟩
      · simp only [process_name_sources, ho, hrun]
      · intro f hfail
        exact hpres f (fun z hz hzf => hfail z (List.mem_cons_of_mem c hz) hzf)

/-- C4 amended: in absorb mode (`raise_on_primary_failure=False`),
`_fetch_raw_data` never raises as a consequence of any individual source
returning an error result (given well-formed, type-acceptable success
payloads); the merged record is returned, and every field that only the
failing source declares — other than the seeded `steam_appid` — is left at
its schema default. (A field declared by a second, successful source, such
as `review_score`, may instead carry that source's value, and the seeded
`steam_appid` keeps the identifier even when its source fails.) -/
theorem c4_absorb_never_raises (oracle : String → RawVal → SourceResult)
    (appid : String) (now : ℤ)
    (hwf : ∀ c ∈ all_sources, ∀ idv d, oracle c.name idv = .success d →
      ∀ g ∈ c.fields, ∃ v, alookup d g = some v ∧ validateOkB g v = true) :
    ∃ rec, fetch_raw_data oracle appid false now = .ok rec ∧
      ∀ c ∈ all_sources, (∀ idv, isFailure (oracle c.name idv) = true) →
        ∀ f ∈ c.fields, f ≠ "steam_appid" →
          (∀ c' ∈ all_sources, f ∈ c'.fields → c' = c) →
          alookup rec f = schemaDefault f := by
  have hwf_id : ∀ c ∈ id_based_sources, ∀ d,
      oracle c.name (RawVal.rstr appid) = .success d →
      ∀ g ∈ c.fields, ∃ v, alookup d g = some v ∧ validateOkB g v = true :=
    fun c hc d hd => hwf c (List.mem_append_left _ hc) (RawVal.rstr appid) d hd
  obtain ⟨raw1, hrun1, hacc1, hpres1⟩ := process_id_absorb oracle
    (RawVal.rstr appid) id_based_sources
    [("steam_appid", RawVal.rstr appid)] hwf_id (seed_accOk appid)
  have hfinish : ∀ raw2 : List (String × RawVal),
      (∀ z, game_data_model now raw2 = .ok z →
        fetch_raw_data oracle appid false now = .ok z) →
      accOk raw2 →
      (∀ f, (∀ c ∈ name_based_sources, f ∈ c.fields →
          ∀ idv, isFailure (oracle c.name idv) = true) →
        alookup raw2 f = alookup raw1 f) →
      ∃ rec, fetch_raw_data oracle appid false now = .ok rec ∧
        ∀ c ∈ all_sources, (∀ idv, isFailure (oracle c.name idv) = true) →
          ∀ f ∈ c.fields, f ≠ "steam_appid" →
            (∀ c' ∈ all_sources, f ∈ c'.fields → c' = c) →
            alookup rec f = schemaDefault f := by
    intro raw2 hfe hacc2 hpres2
    obtain ⟨rec0, hb⟩ := buildFields_ok_of_all raw2 field_table
      (fun fk hfk => hacc2 fk.1 fk.2 (field_table_self fk hfk))
    have hgdm : game_data_model now raw2 = .ok (preprocess_data now rec0) :=
      by simp [game_data_model, hb, Except.map]
    refine ⟨preprocess_data now rec0, hfe _ hgdm, ?_⟩
    intro c hc hfail f hfmem hfne hsole
    rcases hkk : alookup field_table f with _ | k
    · have hd := declared_in_table c hc f hfmem
      rw [hkk] at hd
      exact Bool.noConfusion hd
    have hraw1 : alookup raw1 f = none := by
      have hs : ¬"steam_appid" = f := fun h => hfne h.symm
      rw [hpres1 f (fun z hz hzf => by
        rw [hsole z (List.mem_append_left _ hz) hzf]
        exact hfail (RawVal.rstr appid))]
      simp [alookup, hs]
    have hraw2 : alookup raw2 f = none := by
      rw [hpres2 f (fun z hz hzf idv => by
        rw [hsole z (List.mem_append_right _ hz) hzf]
        exact hfail idv)]
      exact hraw1
    obtain ⟨v, hval, hlookrec⟩ :=
      buildFields_lookup raw2 field_table rec0 hb f k hkk
    rw [hraw2] at hval
    have hnc := declared_not_computed c hc f hfmem
    rw [alookup_preprocess_other now rec0 f hnc.1 hnc.2, hlookrec]
    simp [schemaDefault, hkk, hval]
  rcases hlook : alookup raw1 "name" with _ | nv
  · exact hfinish raw1
      (fun z hz => by simp [fetch_raw_data, hrun1, hlook, hz, except_bind_ok])
      hacc1 (fun _ _ => rfl)
  · rcases htru : pyTruthy nv with _ | _
    · exact hfinish raw1
        (fun z hz => by
          simp [fetch_raw_data, hrun1, hlook, htru, hz, except_bind_ok])
        hacc1 (fun _ _ => rfl)
    · have hwf_name : ∀ c ∈ name_based_sources, ∀ d,
          oracle c.name nv = .success d →
          ∀ g ∈ c.fields, ∃ v, alookup d g = some v
            ∧ validateOkB g v = true :=
        fun c hc d hd => hwf c (List.mem_append_right _ hc) nv d hd
      obtain ⟨raw2, hrun2, hacc2, hpres2⟩ := process_name_absorb oracle nv
        name_based_sources raw1 hwf_name hacc1
      exact hfinish raw2
        (fun z hz => by
          simp [fetch_raw_data, hrun1, hlook, htru, hrun2, hz,
            except_bind_ok])
        hacc2 (fun f hf => hpres2 f (fun z hz hzf => hf z hz hzf nv))

set_option maxRecDepth 8000 in
/-- C4 counterexample: the supplementary source `SteamReview` fails, yet
its declared field `review_score` is not at its schema default in the
merged record — the name-keyed `HowLongToBeat`, which also declares
`review_score`, succeeded and supplied `80`. -/
theorem c4_counterexample :
    isFailure (c4c_oracle "SteamReview" (RawVal.rstr "1")) = true ∧
    "review_score" ∈ steamreview_fields ∧
    schemaDefault "review_score" = some ValV.vNone ∧
    resultLookup (fetch_raw_data c4c_oracle "1" false 0) "review_score" =
      some (ValV.vInt 80) :=
  ⟨rfl, by decide, rfl, by decide⟩

/-- C4 witness: with every source failing (trivially well-formed), absorb
mode still returns a merged record, and `ProtonDB`'s solely-declared
`protondb_tier` is at its schema default. -/
theorem c4_witness :
    (fetch_raw_data c4w_oracle "1" false 0).isOk = true ∧
    resultLookup (fetch_raw_data c4w_oracle "1" false 0) "protondb_tier" =
      schemaDefault "protondb_tier" := by
  obtain ⟨rec, hrec, hdef⟩ := c4_absorb_never_raises c4w_oracle "1" 0
    (fun c hc idv d h => SourceResult.noConfusion h)
  have hval := hdef ⟨"ProtonDB", protondb_fields, false⟩ (by decide)
    (fun idv => rfl) "protondb_tier" (by decide) (by decide) (by decide)
  constructor
  · rw [hrec]; rfl
  · show resultLookup (fetch_raw_data c4w_oracle "1" false 0)
      "protondb_tier" = schemaDefault "protondb_tier"
    rw [hrec]
    exact hval

/-- C10 witness: the concrete empty success payload makes
`_fetch_raw_data` raise `KeyError` on the first declared field. -/
theorem c10_witness :
    fetch_raw_data c10_oracle "1" false 0 = .error (.keyError "steam_appid") :=
  c10_missing_declared_field_keyerror c10_oracle "1" 0 false []
    ⟨"SteamStore", steamstore_fields, true⟩
    [⟨"Gamalytic", gamalytic_fields, false⟩,
     ⟨"SteamSpy", steamspy_fields, false⟩,
     ⟨"SteamCharts", steamcharts_fields, false⟩,
     ⟨"SteamReview", steamreview_fields, false⟩,
     ⟨"SteamAchievements", steamachievements_fields, false⟩,
     ⟨"ProtonDB", protondb_fields, false⟩] [] "steam_appid" rfl
    (fun c' hc' => absurd hc' (List.not_mem_nil c')) rfl rfl

end GameInsights
